import Mathlib

/-!
Verification of the core components of `app_enhanced.py`
(audioCraft_Plus_Enhanced): the segment timing calculator (`s2t`,
`calc_time`), the expiring file registry (`FileCleaner`), the
continuation preprocessing of `_do_predictions`, the metadata
encode/decode pair (`predict_full`/`add_tags` and `info_to_params`),
the validation ordering of `predict_full`, and the collision-avoiding
output naming of `save_outputs`.

Python integers are modelled as `ℤ`, Python floats as `ℚ` (every
comparison and truncation appearing in the verified code paths is
exact at the inputs used, so rational arithmetic coincides with IEEE
semantics there), audio tensors as `List ℚ` along the time axis, and
the filesystem as a `List String` of existing paths.
-/

namespace AppEnhanced

/-! ## Segment timing calculator: `s2t` (lines 766-774) and `calc_time` (lines 777-813) -/

/-- Python `"%02d" % n`: decimal rendering left-padded with `0` to width 2
(a negative number keeps its sign, as in Python). -/
def fmt2 (n : ℤ) : String :=
  if n < 0 then "-" ++ toString (-n)
  else if n < 10 then "0" ++ toString n
  else toString n

/-- `s2t(seconds, seconds2)` from `app_enhanced.py` lines 766-774: renders the
window `"%02d:%02d - %02d:%02d"` using `divmod(·, 60)` (Python floor
division, which is euclidean division for the positive divisor 60), bumping
the start second by one when `seconds != 0 and seconds < seconds2`. -/
def s2t (seconds seconds2 : ℤ) : String :=
  let m := seconds / 60
  let s := seconds % 60
  let m2 := seconds2 / 60
  let s2 := seconds2 % 60
  let s := if seconds ≠ 0 ∧ seconds < seconds2 then s + 1 else s
  fmt2 m ++ ":" ++ fmt2 s ++ " - " ++ fmt2 m2 ++ ":" ++ fmt2 s2

/-- The `for i in range(1, 10)` loop of `calc_time` (lines 805-811): slot `i`
reports `[time, max_time]` and clamps the clock to `max_time` when
`time + tracks[i] >= max_time or i == s`, otherwise reports
`[time, time + tracks[i]]` and advances the clock.  `fuel` counts the
remaining iterations (9 at the top-level call). -/
def calcLoop (max_time sIdx : ℤ) (tracks : List ℤ) : ℕ → ℤ → ℕ → List (ℤ × ℤ)
  | _, _, 0 => []
  | i, time, fuel + 1 =>
    let t := tracks.getD i 0
    if max_time ≤ time + t ∨ (i : ℤ) = sIdx then
      (time, max_time) :: calcLoop max_time sIdx tracks (i + 1) max_time fuel
    else
      (time, time + t) :: calcLoop max_time sIdx tracks (i + 1) (time + t) fuel

/-- Body of `calc_time` (lines 782-813) after `max_limit` has been selected
from the generator kind: slot 0 spans `[0, max_time]` when
`tracks[0] >= max_time or s == 0` (with `s` already decremented) and
`[0, tracks[0]]` otherwise; the remaining nine slots follow `calcLoop`.
`tracks[0] = max_limit + (d0 - 1) * track_add` and
`tracks[i] = di * track_add` with `track_add = max_limit - overlap`. -/
def calcTimePairsGen (max_limit s duration overlap d0 d1 d2 d3 d4 d5 d6 d7 d8 d9 : ℤ) :
    List (ℤ × ℤ) :=
  let sIdx := s - 1
  let max_time := duration
  let track_add := max_limit - overlap
  let tracks : List ℤ :=
    (max_limit + (d0 - 1) * track_add) ::
      ([d1, d2, d3, d4, d5, d6, d7, d8, d9].map (fun d => d * track_add))
  if max_time ≤ tracks.headI ∨ sIdx = 0 then
    (0, max_time) :: calcLoop max_time sIdx tracks 1 max_time 9
  else
    (0, tracks.headI) :: calcLoop max_time sIdx tracks 1 tracks.headI 9

/-- The ten `[start, stop]` windows computed by `calc_time`
(`app_enhanced.py` lines 777-813) before string formatting; `max_limit` is
30 for `"music"` and 10 for `"audio"` (lines 788-792; for any other kind
the Python variable would stay 0). -/
def calcTimePairs (gen_type : String) (s duration overlap d0 d1 d2 d3 d4 d5 d6 d7 d8 d9 : ℤ) :
    List (ℤ × ℤ) :=
  calcTimePairsGen (if gen_type = "music" then 30 else if gen_type = "audio" then 10 else 0)
    s duration overlap d0 d1 d2 d3 d4 d5 d6 d7 d8 d9

/-- `calc_time` from `app_enhanced.py` lines 777-813: the ten reported
window strings, each formatted by `s2t`. -/
def calc_time (gen_type : String) (s duration overlap d0 d1 d2 d3 d4 d5 d6 d7 d8 d9 : ℤ) :
    List String :=
  (calcTimePairs gen_type s duration overlap d0 d1 d2 d3 d4 d5 d6 d7 d8 d9).map
    (fun p => s2t p.1 p.2)

/-! ## Expiring file registry: `FileCleaner` (lines 101-118) -/

/-- State of a `FileCleaner` plus the part of the filesystem it touches:
`files` is the registry's `self.files` list of `(time_added, path)` entries,
`fs` the set (as a list) of currently existing paths. -/
structure CleanerState where
  files : List (ℚ × String)
  fs : List String
  deriving DecidableEq, Repr

/-- `FileCleaner._cleanup` (lines 110-118): walk the entries front to back;
an entry older than `file_lifetime` has its path unlinked if it still exists
(`if path.exists(): path.unlink()`, so a missing file is skipped rather
than raising) and is popped from the front; the walk stops at the first
entry that is not yet expired.  Returns the remaining entries and the
filesystem after the deletions. -/
def cleanup (lifetime now : ℚ) : List (ℚ × String) → List String →
    List (ℚ × String) × List String
  | [], fs => ([], fs)
  | (time_added, path) :: rest, fs =>
    if lifetime < now - time_added then
      cleanup lifetime now rest (if path ∈ fs then fs.filter (fun q => q != path) else fs)
    else ((time_added, path) :: rest, fs)

/-- `FileCleaner.add` (lines 106-108): run `_cleanup`, then append the new
entry stamped with the current time. -/
def addFile (lifetime now : ℚ) (path : String) (st : CleanerState) : CleanerState :=
  let c := cleanup lifetime now st.files st.fs
  ⟨c.1 ++ [(now, path)], c.2⟩

/-- A sequence of `FileCleaner.add` calls, each given as a
`(time.time() value, path)` pair, run left to right. -/
def runAdds (lifetime : ℚ) (ops : List (ℚ × String)) (st : CleanerState) : CleanerState :=
  ops.foldl (fun s op => addFile lifetime op.1 op.2 s) st

/-! ## Continuation preprocessing in `_do_predictions` (lines 474-507, 545-564) -/

/-- Python `int(x)` on a float: truncation toward zero. -/
def pyInt (x : ℚ) : ℤ :=
  if 0 ≤ x then ⌊x⌋ else -⌊-x⌋

/-- Normalisation of one slice index for Python sequence slicing `xs[lo:hi]`:
a negative index counts from the end, and indices are clamped into
`[0, len]`. -/
def pySliceIdx (len i : ℤ) : ℤ :=
  if i < 0 then max 0 (len + i) else min i len

/-- Python slice `xs[lo:hi]` on a one-dimensional tensor modelled as a list. -/
def pySlice (xs : List ℚ) (lo hi : ℤ) : List ℚ :=
  let lo' := pySliceIdx (xs.length : ℤ) lo
  let hi' := pySliceIdx (xs.length : ℤ) hi
  (xs.take hi'.toNat).drop lo'.toNat

/-- `normalize_audio` (lines 453-457): divide by the peak absolute value.
Only the length of the result matters to the verified properties; the
all-zero corner (where NumPy would produce NaNs) maps division by zero to
zero as in `ℚ`. -/
def normalize_audio (audio_data : List ℚ) : List ℚ :=
  let max_value := (audio_data.map (fun x => |x|)).foldr max 0
  audio_data.map (fun x => x / max_value)

/-- Result of the conditioning-sample preprocessing at the top of
`_do_predictions` (lines 479-507). -/
structure PrepResult where
  maximum_size : ℚ
  cut_size : ℚ
  input_length : ℚ
  sampleP : Option (List ℚ)
  sampleM : List ℚ
  trimLo : ℤ
  trimHi : ℤ
  duration : ℚ
  deriving Repr

/-- Conditioning-sample preprocessing of `_do_predictions`
(`app_enhanced.py` lines 479-507) after `maximum_size` has been selected
from the generator kind: normalise, clip the trim bounds against the
sample length (lines 489-496), slice the sample (line 497, recorded also
as `trimLo`/`trimHi`), split off the excess prefix `sampleP` when the
trimmed length exceeds `maximum_size` (lines 499-502), and raise
`duration` to the sample length plus 0.5 when it would truncate the
sample (lines 503-504). -/
def do_predictions_prepCore (maximum_size : ℚ) (globalSR : ℕ) (sampleM0 : List ℚ)
    (trim_start trim_end duration : ℚ) : PrepResult :=
  let sampleM := normalize_audio sampleM0
  let sample_length : ℚ := (sampleM.length : ℚ) / (globalSR : ℚ)
  let trim_start := if trim_start ≥ sample_length then sample_length - 1/2 else trim_start
  let trim_end := if trim_end ≥ sample_length then sample_length - 1/2 else trim_end
  let trims : ℚ × ℚ :=
    if trim_start + trim_end ≥ sample_length then
      (((sample_length - 1/2) / 2), ((sample_length - 1/2) / 2))
    else (trim_start, trim_end)
  let trimLo := pyInt ((globalSR : ℚ) * trims.1)
  let trimHi := pyInt ((globalSR : ℚ) * (sample_length - trims.2))
  let sampleM := pySlice sampleM trimLo trimHi
  let sample_length := sample_length - (trims.1 + trims.2)
  let split : ℚ × Option (List ℚ) × List ℚ :=
    if sample_length > maximum_size then
      let cut_size := sample_length - maximum_size
      (cut_size,
       some (pySlice sampleM 0 (pyInt ((globalSR : ℚ) * cut_size))),
       pySlice sampleM (pyInt ((globalSR : ℚ) * cut_size)) (sampleM.length : ℤ))
    else (0, none, sampleM)
  let duration := if sample_length ≥ duration then sample_length + 1/2 else duration
  ⟨maximum_size, split.1, sample_length, split.2.1, split.2.2, trimLo, trimHi, duration⟩

/-- Conditioning-sample preprocessing of `_do_predictions`
(`app_enhanced.py` lines 474-507): `maximum_size` is 29.5 for `"music"`
and 9.5 for `"audio"` (lines 475-478). -/
def do_predictions_prep (gen_type : String) (globalSR : ℕ) (sampleM0 : List ℚ)
    (trim_start trim_end duration : ℚ) : PrepResult :=
  do_predictions_prepCore
    (if gen_type = "music" then 29.5 else if gen_type = "audio" then 9.5 else 0)
    globalSR sampleM0 trim_start trim_end duration

/-- Assembly of the continuation output (lines 528-564): when a prepend
buffer was split off, it is converted (`convert_audio`, line 547, modelled
abstractly as `convert`) and concatenated in front of the model's
continuation output (line 564: `torch.cat([sampleP, outputs], 2)`);
otherwise the model output is returned as is.  The model call itself
(`MODEL.generate_continuation` on `sampleM`) is abstracted as `generate`. -/
def continuation_outputs (prep : PrepResult) (convert : List ℚ → List ℚ)
    (generate : List ℚ → List ℚ) : List ℚ :=
  match prep.sampleP with
  | none => generate prep.sampleM
  | some sampleP => convert sampleP ++ generate prep.sampleM

/-- Clamping of the trim bounds in `predict_full` (lines 874-877): a
negative `trim_start` or `trim_end` is silently replaced by 0 before
`_do_predictions` is called. -/
def predict_full_trims (trim_start trim_end : ℚ) : ℚ × ℚ :=
  (if trim_start < 0 then 0 else trim_start, if trim_end < 0 then 0 else trim_end)

/-! ## Validation ordering in `predict_full` (lines 846-909) -/

/-- Externally visible side effects of the prefix of `predict_full`,
in program order. -/
inductive Effect where
  | imageGen
  | loadDiffusion
  | unloadDiffusion
  | loadModel
  | setSeed
  | generation
  deriving DecidableEq, Repr

/-- Effect trace of `predict_full` (lines 846-976) up to the first model
generation, paired with the validation error it raises, if any.  The
background-image block (lines 852-858) runs first: when
`generate_bg_image` is set, no `image` is supplied and
`global_prompt if global_prompt else p0` is non-empty, an image is
generated (loading a diffusion pipeline and writing a file).  Only then are
`temperature`, `topk` and `topp` validated (lines 867-872), raising
`gr.Error` in that order; on success the decoder is loaded or unloaded
(lines 881-886), the model is loaded if needed (lines 895-899), the seed is
set (lines 901-903) and `_do_predictions` invokes generation. -/
def predict_full_pre (generate_bg_image : Bool) (image : Option String)
    (global_prompt p0 : String) (temperature topk topp : ℚ)
    (decoder : String) (model_loaded : Bool) : List Effect × Option String :=
  let effs : List Effect :=
    if generate_bg_image = true ∧ image = none ∧ (global_prompt ≠ "" ∨ p0 ≠ "") then
      [Effect.imageGen]
    else []
  if temperature < 0 then (effs, some "Temperature must be >= 0.")
  else if topk < 0 then (effs, some "Topk must be non-negative.")
  else if topp < 0 then (effs, some "Topp must be non-negative.")
  else
    (effs ++
      (if decoder = "MultiBand_Diffusion" then [Effect.loadDiffusion]
       else [Effect.unloadDiffusion]) ++
      (if model_loaded then [] else [Effect.loadModel]) ++
      [Effect.setSeed, Effect.generation], none)

/-! ## Metadata tags: `predict_full`/`add_tags` (lines 646-683, 923-977)
and `info_to_params` (lines 250-298) -/

/-- Tool version string (line 39). -/
def pyVersion : String := "2.0.1"

/-- The JSON record written by `add_tags` (lines 649-671), with `none`
meaning a missing key.  Numeric values travel as decimal strings in the
JSON; since Python's `str`/`int` and `repr`/`float` conversions round-trip
exactly, the embedding carries them as their numeric values (`bpm` uses
`Option ℤ` inside the entry because `predict_full` stores the literal
string `"none"` for unstructured prompts). -/
structure Tags where
  global_prompt : Option String := none
  bpm : Option (Option ℤ) := none
  key : Option String := none
  scale : Option String := none
  texts : Option String := none
  duration : Option ℤ := none
  overlap : Option ℤ := none
  seed : Option ℤ := none
  audio_mode : Option String := none
  input_length : Option String := none
  channel : Option String := none
  sr_select : Option String := none
  model : Option String := none
  custom_model : Option String := none
  decoder : Option String := none
  topk : Option ℤ := none
  topp : Option ℚ := none
  temperature : Option ℚ := none
  cfg_coef : Option ℚ := none
  generator : Option String := none
  version : Option String := none
  deriving Repr

/-- The arguments of `predict_full` that feed the metadata record.
`texts`/`repeats` are the ten prompt slots `p0..p9` / `d0..d9`. -/
structure Request where
  gen_type : String
  model : String
  decoder : String
  custom_model : String
  prompt_amount : ℕ
  struc_prompt : Bool
  bpm : ℤ
  key : String
  scale : String
  global_prompt : String
  texts : List String
  repeats : List ℕ
  audio : Bool
  mode : String
  duration : ℤ
  topk : ℚ
  topp : ℚ
  temperature : ℚ
  cfg_coef : ℚ
  seed : ℤ
  overlap : ℤ
  channel : String
  sr_select : String
  deriving Repr

/-- The `raw_texts` list accumulated by the prompt-assembly loop of
`predict_full` (lines 939-971): segment `ind < prompt_amount` contributes
`drag_cat[ind]` copies of `text_cat[ind]`. -/
def raw_texts (r : Request) : List String :=
  ((List.range r.prompt_amount).map
    (fun i => List.replicate (r.repeats.getD i 0) (r.texts.getD i ""))).flatten

/-- Lowercase hexadecimal digit, as in a Python `\xNN` escape. -/
def hexDigitChar (n : ℕ) : Char :=
  if n < 10 then Char.ofNat (48 + n) else Char.ofNat (87 + n)

/-- Python `repr` escaping of one string character when the enclosing
quote is `q`: the backslash and the quote character are backslash-escaped,
tab, newline and carriage return get their short escapes, the remaining
control characters (codepoint below 32, or 127) become `\xNN`, and every
other character is emitted unchanged.  (CPython additionally escapes
non-printable codepoints at 128 and above; the model passes those
through, and the round-trip theorem below restricts texts to the ASCII
range, where the model matches CPython exactly.) -/
def pyReprEsc (q c : Char) : List Char :=
  if c = '\\' then ['\\', '\\']
  else if c = q then ['\\', q]
  else if c = '\t' then ['\\', 't']
  else if c = '\n' then ['\\', 'n']
  else if c = '\r' then ['\\', 'r']
  else if c.toNat < 32 ∨ c.toNat = 127 then
    ['\\', 'x', hexDigitChar (c.toNat / 16), hexDigitChar (c.toNat % 16)]
  else [c]

/-- A character Python `repr` emits unchanged inside a single-quoted
string: printable ASCII (codepoints 32-126) other than the backslash and
the single quote. -/
def pyReprPlain (c : Char) : Bool :=
  c != '\\' && c != '\'' && decide (32 ≤ c.toNat) && decide (c.toNat < 127)

/-- Python `repr` of a string: single-quoted unless the string contains a
single quote but no double quote (then double-quoted, with the single
quote left unescaped), each character escaped by `pyReprEsc`. -/
def pyReprStr (s : String) : String :=
  if '\'' ∈ s.data ∧ '"' ∉ s.data then
    String.mk ('"' :: ((s.data.map (pyReprEsc '"')).flatten ++ ['"']))
  else
    String.mk ('\'' :: ((s.data.map (pyReprEsc '\'')).flatten ++ ['\'']))

/-- Comma-space join of the quoted entries, as inside Python `str` of a
list of strings. -/
def pyStrListGo : List String → String
  | [] => ""
  | [x] => pyReprStr x
  | x :: y :: rest => pyReprStr x ++ ", " ++ pyStrListGo (y :: rest)

/-- Python `str(raw_texts)` (line 977): the printed-list form
`['a', 'b']`, each entry rendered by `repr`. -/
def pyStrList (xs : List String) : String :=
  "[" ++ pyStrListGo xs ++ "]"

/-- The encoding half of the metadata record: the `tags` list built at
line 977 of `predict_full` poured into the `add_tags` JSON record
(lines 649-671).  `rand_seed` models `random.randint` at line 902 (used
only when the requested seed is negative), `input_length` the string of the
`_do_predictions` return value.  The prompt-assembly loop (lines 939-971)
overwrites `global_prompt`/`bpm`/`key`/`scale` with `"none"` on every
unstructured iteration, so they reach the record as `"none"` whenever the
request is unstructured and the loop ran at least once. -/
def encodeTags (rand_seed : ℤ) (input_length : String) (r : Request) : Tags :=
  let mutated := r.struc_prompt = false ∧ raw_texts r ≠ []
  let model_full :=
    if r.gen_type = "music" then "GrandaddyShmax/musicgen-" ++ r.model
    else "GrandaddyShmax/audiogen-" ++ r.model
  let custom_model_shrt :=
    if r.gen_type = "audio" then "none"
    else if model_full = "GrandaddyShmax/musicgen-custom" then r.custom_model else "none"
  { global_prompt := some (if mutated then "none" else r.global_prompt)
    bpm := some (if mutated then none else some r.bpm)
    key := some (if mutated then "none" else r.key)
    scale := some (if mutated then "none" else r.scale)
    texts := some (pyStrList (raw_texts r))
    duration := some r.duration
    overlap := some r.overlap
    seed := some (if r.seed < 0 then rand_seed else r.seed)
    audio_mode := some (if r.audio then r.mode else "none")
    input_length := some input_length
    channel := some r.channel
    sr_select := some r.sr_select
    model := some r.model
    custom_model := some custom_model_shrt
    decoder := some r.decoder
    topk := some (pyInt r.topk)
    topp := some r.topp
    temperature := some r.temperature
    cfg_coef := some r.cfg_coef
    generator := some r.gen_type
    version := some pyVersion }

/-- The scan of `re.findall(r"'(.*?)'", s)`: left-to-right, an opening
quote starts collecting (state `some acc`, characters accumulated in
reverse), the next quote emits the collected text; a trailing unmatched
quote yields nothing. -/
def findQuotedGo : List Char → Option (List Char) → List String
  | [], _ => []
  | c :: rest, none =>
    if c = '\'' then findQuotedGo rest (some []) else findQuotedGo rest none
  | c :: rest, some acc =>
    if c = '\'' then String.mk acc.reverse :: findQuotedGo rest none
    else findQuotedGo rest (some (c :: acc))

/-- `re.findall(r"'(.*?)'", s)` (line 273): all non-overlapping shortest
single-quoted fragments of `s`. -/
def findQuotedStr (s : String) : List String := findQuotedGo s.data none

/-- Python `repeat[-1] += 1`: increment the last entry (no-op on the empty
list, which the source never hits in this branch). -/
def incrementLast : List ℕ → List ℕ
  | [] => []
  | [n] => [n + 1]
  | n :: m :: rest => n :: incrementLast (m :: rest)

/-- Python `elem.strip()` truthiness: the string contains at least one
non-whitespace character. -/
def pyStripTruthy (s : String) : Bool := s.data.any (fun c => !c.isWhitespace)

/-- The duplicate-collapsing loop of `info_to_params` (lines 274-284):
entries whose `strip()` is empty (no non-whitespace character) are
skipped; an entry equal to the previous raw entry increments the last
repeat count, any other entry opens a new `(text, 1)` group.  `prev`
carries `s[i-1]`. -/
def collapseGo : List String → Option String → List String × List ℕ → List String × List ℕ
  | [], _, acc => acc
  | elem :: rest, prev, acc =>
    if pyStripTruthy elem then
      if prev = some elem then
        collapseGo rest (some elem) (acc.1, incrementLast acc.2)
      else
        collapseGo rest (some elem) (acc.1 ++ [elem], acc.2 ++ [1])
    else collapseGo rest (some elem) acc

/-- The `texts` branch of `info_to_params` (lines 271-286): extract the
quoted fragments, collapse consecutive duplicates into repeat counts, and
pad both lists to (at least) ten entries with `""`/`1`. -/
def parse_texts (s : String) : List String × List ℕ :=
  let c := collapseGo (findQuotedStr s) none ([], [])
  (c.1 ++ List.replicate (10 - c.1.length) "", c.2 ++ List.replicate (10 - c.2.length) 1)

/-- The decoded parameter tuple returned by `info_to_params`
(line 298). -/
structure DecodedParams where
  decoder : String
  struc_prompt : Bool
  global_prompt : String
  bpm : ℤ
  key : String
  scale : String
  model : String
  custom_model : Option String
  unique_prompts : ℕ
  text : List String
  repeats : List ℕ
  audio_mode : String
  duration : ℤ
  topk : ℚ
  topp : ℚ
  temperature : ℚ
  cfg_coef : ℚ
  seed : ℤ
  overlap : ℤ
  channel : String
  sr_select : String
  deriving Repr

/-- `info_to_params` (lines 259-298), decoding a tag record into the
parameter tuple; every key is guarded by an `'key' in data` check and
missing keys fall back to the documented defaults.  `folders` models
`get_available_folders()` for the `custom_model` availability check
(line 265). -/
def info_to_params (folders : List String) (t : Tags) : DecodedParams :=
  let struc_prompt := match t.bpm with
    | none => false
    | some none => false
    | some (some _) => true
  let bpm : ℤ := match t.bpm with
    | none => 120
    | some none => 120
    | some (some n) => n
  let key := match t.key with
    | none => "C"
    | some k => if k = "none" then "C" else k
  let scale := match t.scale with
    | none => "Major"
    | some sc => if sc = "none" then "Major" else sc
  let custom_model := match t.custom_model with
    | none => none
    | some c => if c ∈ folders then some c else none
  let tr : List String × List ℕ := match t.texts with
    | none => (List.replicate 10 "", List.replicate 10 1)
    | some s => parse_texts s
  let unique_prompts : ℕ := match t.texts with
    | none => 1
    | some _ => (tr.1.filter (fun x => x ≠ "")).length
  let audio_mode := match t.audio_mode with
    | none => "sample"
    | some a => if a = "none" then "sample" else a
  { decoder := t.decoder.getD "Default"
    struc_prompt := struc_prompt
    global_prompt := t.global_prompt.getD ""
    bpm := bpm
    key := key
    scale := scale
    model := t.model.getD "large"
    custom_model := custom_model
    unique_prompts := unique_prompts
    text := tr.1
    repeats := tr.2
    audio_mode := audio_mode
    duration := t.duration.getD 10
    topk := match t.topk with
      | none => 250
      | some n => (n : ℚ)
    topp := t.topp.getD 0
    temperature := t.temperature.getD 1
    cfg_coef := t.cfg_coef.getD 5
    seed := t.seed.getD (-1)
    overlap := t.overlap.getD 12
    channel := t.channel.getD "stereo"
    sr_select := t.sr_select.getD "48000" }

/-! ## Output persistence: `save_outputs` (lines 686-732) -/

/-- A destination file name inside one dated output directory: the seed
stem together with an optional `(n)` suffix (`none` is the bare
`<seed>.<ext>` name). -/
abbrev OutName := String × Option ℕ

/-- The `while os.path.exists(target)` loop of `save_outputs`
(lines 707-711): starting at suffix `(1)`, take the first suffixed name not
present in the directory.  `fuel` bounds the search; it is called with more
fuel than the directory has entries, so the fallback arm is never the
result. -/
def nextSuffix (stem : String) (fs : List OutName) : ℕ → ℕ → OutName
  | counter, 0 => (stem, some counter)
  | counter, fuel + 1 =>
    if (stem, some counter) ∈ fs then nextSuffix stem fs (counter + 1) fuel
    else (stem, some counter)

/-- Destination-name choice of `save_outputs` (lines 705-711): the bare
`<seed>.wav` if free, else the first free `<seed>(n).wav` with `n`
counting up from 1. -/
def save_target (stem : String) (fs : List OutName) : OutName :=
  if (stem, none) ∈ fs then nextSuffix stem fs 1 (fs.length + 1) else (stem, none)

/-- One `save_outputs` call restricted to the wav directory: pick the
collision-free target and copy the file there (line 713), extending the
directory. -/
def save_output (stem : String) (fs : List OutName) : OutName × List OutName :=
  let t := save_target stem fs
  (t, t :: fs)

/-- A request with two adjacent prompt segments carrying the *same* text
`"a"`, each with repeat 1 (used to exercise the metadata round-trip). -/
def c5_request_dup : Request :=
  { gen_type := "music", model := "large", decoder := "Default",
    custom_model := "none", prompt_amount := 2, struc_prompt := false,
    bpm := 120, key := "C", scale := "Major", global_prompt := "",
    texts := ["a", "a", "", "", "", "", "", "", "", ""],
    repeats := [1, 1, 1, 1, 1, 1, 1, 1, 1, 1], audio := false,
    mode := "sample", duration := 10, topk := 250, topp := 0,
    temperature := 1, cfg_coef := 3, seed := 42, overlap := 12,
    channel := "stereo", sr_select := "48000" }

/-- A structured request with two distinct prompt segments (used as a
round-trip witness). -/
def c5_request_ok : Request :=
  { gen_type := "music", model := "large", decoder := "Default",
    custom_model := "none", prompt_amount := 2, struc_prompt := true,
    bpm := 95, key := "D", scale := "Minor", global_prompt := "gp",
    texts := ["a", "b", "", "", "", "", "", "", "", ""],
    repeats := [2, 1, 1, 1, 1, 1, 1, 1, 1, 1], audio := true,
    mode := "sample", duration := 10, topk := 250, topp := 0,
    temperature := 1, cfg_coef := 3, seed := 42, overlap := 12,
    channel := "stereo", sr_select := "48000" }

/-! ## Theorems: segment timing calculator (claims C1, C8) -/

theorem getD_replicate_of_lt {α : Type} (a d : α) :
    ∀ n k, k < n → (List.replicate n a).getD k d = a := by
  intro n
  induction n with
  | zero => intro k hk; exact absurd hk (Nat.not_lt_zero k)
  | succ m ih =>
    intro k hk
    cases k with
    | zero => rfl
    | succ k' =>
      rw [List.replicate_succ, List.getD_cons_succ]
      exact ih k' (Nat.lt_of_succ_lt_succ hk)

theorem calcLoop_length (M sIdx : ℤ) (tracks : List ℤ) :
    ∀ fuel i time, (calcLoop M sIdx tracks i time fuel).length = fuel := by
  intro fuel
  induction fuel with
  | zero => intro i time; rfl
  | succ f ih =>
    intro i time
    simp only [calcLoop]
    split
    · simp [ih]
    · simp [ih]

theorem calcLoop_absorb (M sIdx : ℤ) (tracks : List ℤ)
    (ht : ∀ j, 0 ≤ tracks.getD j 0) :
    ∀ fuel i, calcLoop M sIdx tracks i M fuel = List.replicate fuel (M, M) := by
  intro fuel
  induction fuel with
  | zero => intro i; rfl
  | succ f ih =>
    intro i
    have hM : M ≤ M + tracks.getD i 0 := le_add_of_nonneg_right (ht i)
    simp only [calcLoop]
    rw [if_pos (Or.inl hM), ih (i + 1), List.replicate_succ]

theorem calcLoop_last_snd (M sIdx : ℤ) (tracks : List ℤ)
    (ht : ∀ j, 0 ≤ tracks.getD j 0) :
    ∀ (fuel i : ℕ) (time : ℤ), time ≤ M → (i : ℤ) ≤ sIdx → sIdx < (i : ℤ) + (fuel : ℤ) →
      ((calcLoop M sIdx tracks i time fuel).getD (fuel - 1) (0, 0)).2 = M := by
  intro fuel
  induction fuel with
  | zero => intro i time _ hlo hhi; exfalso; omega
  | succ f ih =>
    intro i time hle hlo hhi
    simp only [calcLoop]
    by_cases hc : M ≤ time + tracks.getD i 0 ∨ (i : ℤ) = sIdx
    · rw [if_pos hc]
      cases f with
      | zero => rfl
      | succ f' =>
        rw [calcLoop_absorb M sIdx tracks ht (f' + 1) (i + 1)]
        have h9 : f' + 1 + 1 - 1 = f' + 1 := rfl
        rw [h9, List.getD_cons_succ, getD_replicate_of_lt _ _ _ _ (Nat.lt_succ_self f')]
    · rw [if_neg hc]
      push_neg at hc
      have hne : (i : ℤ) + 1 ≤ sIdx := by omega
      have hf : f ≠ 0 := by
        intro h
        subst h
        omega
      obtain ⟨f', rfl⟩ : ∃ f', f = f' + 1 := ⟨f - 1, by omega⟩
      have h9 : f' + 1 + 1 - 1 = f' + 1 := rfl
      rw [h9, List.getD_cons_succ]
      have := ih (i + 1) (time + tracks.getD i 0) (le_of_lt hc.1)
        (by push_cast; omega) (by push_cast at hhi ⊢; omega)
      simpa using this

theorem calcLoop_after_s (M sIdx : ℤ) (tracks : List ℤ)
    (ht : ∀ j, 0 ≤ tracks.getD j 0) :
    ∀ (fuel i : ℕ) (time : ℤ) (k : ℕ), time ≤ M → (i : ℤ) ≤ sIdx → sIdx < (i : ℤ) + (k : ℤ) → k < fuel →
      (calcLoop M sIdx tracks i time fuel).getD k (0, 0) = (M, M) := by
  intro fuel
  induction fuel with
  | zero => intro i time k _ _ _ hk; exact absurd hk (Nat.not_lt_zero k)
  | succ f ih =>
    intro i time k hle hlo hk hkf
    obtain ⟨k', rfl⟩ : ∃ k', k = k' + 1 := by
      refine ⟨k - 1, ?_⟩
      have : k ≠ 0 := by
        intro h
        subst h
        omega
      omega
    simp only [calcLoop]
    by_cases hc : M ≤ time + tracks.getD i 0 ∨ (i : ℤ) = sIdx
    · rw [if_pos hc, List.getD_cons_succ,
        calcLoop_absorb M sIdx tracks ht f (i + 1),
        getD_replicate_of_lt _ _ _ _ (Nat.lt_of_succ_lt_succ hkf)]
    · rw [if_neg hc, List.getD_cons_succ]
      push_neg at hc
      exact ih (i + 1) (time + tracks.getD i 0) k' (le_of_lt hc.1)
        (by omega) (by push_cast at hk ⊢; omega) (Nat.lt_of_succ_lt_succ hkf)

theorem calcLoop_once_end (M sIdx : ℤ) (tracks : List ℤ)
    (ht : ∀ j, 0 ≤ tracks.getD j 0) :
    ∀ (fuel i : ℕ) (time : ℤ) (k l : ℕ), k < l → l < fuel →
      ((calcLoop M sIdx tracks i time fuel).getD k (0, 0)).2 = M →
      (calcLoop M sIdx tracks i time fuel).getD l (0, 0) = (M, M) := by
  intro fuel
  induction fuel with
  | zero => intro i time k l _ hl _; exact absurd hl (Nat.not_lt_zero l)
  | succ f ih =>
    intro i time k l hkl hlf hk
    obtain ⟨l', rfl⟩ : ∃ l', l = l' + 1 := ⟨l - 1, by omega⟩
    simp only [calcLoop] at hk ⊢
    by_cases hc : M ≤ time + tracks.getD i 0 ∨ (i : ℤ) = sIdx
    · rw [if_pos hc, List.getD_cons_succ,
        calcLoop_absorb M sIdx tracks ht f (i + 1),
        getD_replicate_of_lt _ _ _ _ (Nat.lt_of_succ_lt_succ hlf)]
    · rw [if_neg hc] at hk ⊢
      push_neg at hc
      rw [List.getD_cons_succ]
      cases k with
      | zero =>
        exfalso
        rw [List.getD_cons_zero] at hk
        exact absurd hk (ne_of_lt hc.1)
      | succ k' =>
        rw [List.getD_cons_succ] at hk
        exact ih (i + 1) (time + tracks.getD i 0) k' l'
          (Nat.lt_of_succ_lt_succ hkl) (Nat.lt_of_succ_lt_succ hlf) hk

theorem calcTimePairsGen_spec (ml s duration overlap d0 d1 d2 d3 d4 d5 d6 d7 d8 d9 : ℤ)
    (hml : 0 < ml) (hdur : 1 ≤ duration) (hov : overlap ≤ ml)
    (hs1 : 1 ≤ s) (hs10 : s ≤ 10)
    (h0 : 1 ≤ d0) (h1 : 1 ≤ d1) (h2 : 1 ≤ d2) (h3 : 1 ≤ d3) (h4 : 1 ≤ d4)
    (h5 : 1 ≤ d5) (h6 : 1 ≤ d6) (h7 : 1 ≤ d7) (h8 : 1 ≤ d8) (h9 : 1 ≤ d9) :
    (calcTimePairsGen ml s duration overlap d0 d1 d2 d3 d4 d5 d6 d7 d8 d9).length = 10 ∧
    ((calcTimePairsGen ml s duration overlap d0 d1 d2 d3 d4 d5 d6 d7 d8 d9).getD 9
      (0, 0)).2 = duration ∧
    (∀ j : ℕ, j < 10 → s ≤ (j : ℤ) →
      (calcTimePairsGen ml s duration overlap d0 d1 d2 d3 d4 d5 d6 d7 d8 d9).getD j
        (0, 0) = (duration, duration)) ∧
    (∀ j : ℕ, j < 10 → ∀ i : ℕ, i < j →
      ((calcTimePairsGen ml s duration overlap d0 d1 d2 d3 d4 d5 d6 d7 d8 d9).getD i
        (0, 0)).2 = duration →
      (calcTimePairsGen ml s duration overlap d0 d1 d2 d3 d4 d5 d6 d7 d8 d9).getD j
        (0, 0) = (duration, duration)) := by
  have hta : 0 ≤ ml - overlap := by linarith
  set ta := ml - overlap with hta_def
  set tracks : List ℤ :=
    (ml + (d0 - 1) * ta) :: ([d1, d2, d3, d4, d5, d6, d7, d8, d9].map (fun d => d * ta))
    with htracks
  have htnn : ∀ j, 0 ≤ tracks.getD j 0 := by
    have hmem : ∀ x ∈ tracks, 0 ≤ x := by
      intro x hx
      rw [htracks] at hx
      simp only [List.mem_cons, List.mem_map, List.not_mem_nil, or_false] at hx
      rcases hx with rfl | ⟨d, hd, rfl⟩
      · nlinarith
      · rcases hd with rfl | rfl | rfl | rfl | rfl | rfl | rfl | rfl | rfl <;>
          exact mul_nonneg (by linarith) hta
    intro j
    by_cases hj : j < tracks.length
    · exact hmem _ (by rw [List.getD_eq_getElem tracks 0 hj]; exact List.getElem_mem hj)
    · rw [List.getD_eq_default _ _ (le_of_not_lt hj)]
  have hL : calcTimePairsGen ml s duration overlap d0 d1 d2 d3 d4 d5 d6 d7 d8 d9 =
      if duration ≤ tracks.headI ∨ s - 1 = 0 then
        (0, duration) :: calcLoop duration (s - 1) tracks 1 duration 9
      else
        (0, tracks.headI) :: calcLoop duration (s - 1) tracks 1 tracks.headI 9 := rfl
  by_cases hc : duration ≤ tracks.headI ∨ s - 1 = 0
  · rw [hL, if_pos hc, calcLoop_absorb duration (s - 1) tracks htnn 9 1]
    refine ⟨by simp, ?_, ?_, ?_⟩
    · rw [List.getD_cons_succ, getD_replicate_of_lt _ _ _ _ (by norm_num)]
    · intro j hj hsj
      obtain ⟨j', rfl⟩ : ∃ j', j = j' + 1 := ⟨j - 1, by omega⟩
      rw [List.getD_cons_succ, getD_replicate_of_lt _ _ _ _ (by omega)]
    · intro j hj i hij _
      obtain ⟨j', rfl⟩ : ∃ j', j = j' + 1 := ⟨j - 1, by omega⟩
      rw [List.getD_cons_succ, getD_replicate_of_lt _ _ _ _ (by omega)]
  · rw [hL, if_neg hc]
    push_neg at hc
    obtain ⟨hc1, hc2⟩ := hc
    have hs' : 1 ≤ s - 1 := by omega
    have hs9 : s - 1 ≤ 9 := by omega
    have hc1' : tracks.headI < duration := hc1
    refine ⟨by simp [calcLoop_length], ?_, ?_, ?_⟩
    · rw [List.getD_cons_succ]
      have := calcLoop_last_snd duration (s - 1) tracks htnn 9 1 tracks.headI
        (le_of_lt hc1') (by push_cast; omega) (by push_cast; omega)
      simpa using this
    · intro j hj hsj
      obtain ⟨j', rfl⟩ : ∃ j', j = j' + 1 := ⟨j - 1, by omega⟩
      rw [List.getD_cons_succ]
      exact calcLoop_after_s duration (s - 1) tracks htnn 9 1 tracks.headI j'
        (le_of_lt hc1') (by push_cast; omega) (by push_cast at hsj ⊢; omega) (by omega)
    · intro j hj i hij hsnd
      cases i with
      | zero =>
        exfalso
        rw [List.getD_cons_zero] at hsnd
        exact absurd hsnd (ne_of_lt hc1')
      | succ i' =>
        obtain ⟨j', rfl⟩ : ∃ j', j = j' + 1 := ⟨j - 1, by omega⟩
        rw [List.getD_cons_succ] at hsnd ⊢
        exact calcLoop_once_end duration (s - 1) tracks htnn 9 1 tracks.headI i' j'
          (by omega) (by omega) hsnd

/-- C1: for every generator kind (music, capacity 30s; audio, capacity
10s), every `duration >= 1`, every `overlap` at most the capacity, every
prompt count `1 <= s <= 10` and per-slot repeats `>= 1`, the windows
reported by `calc_time` satisfy: the tenth window ends exactly at
`duration`, every slot from index `s` on reports the collapsed
`[duration, duration]` window, and once any window ends at `duration`
(the running clock reached it) every later slot reports
`[duration, duration]`. -/
theorem c1_calc_time_final_window (gen_type : String)
    (s duration overlap d0 d1 d2 d3 d4 d5 d6 d7 d8 d9 : ℤ)
    (hgen : (gen_type = "music" ∧ overlap ≤ 30) ∨ (gen_type = "audio" ∧ overlap ≤ 10))
    (hdur : 1 ≤ duration) (hs1 : 1 ≤ s) (hs10 : s ≤ 10)
    (h0 : 1 ≤ d0) (h1 : 1 ≤ d1) (h2 : 1 ≤ d2) (h3 : 1 ≤ d3) (h4 : 1 ≤ d4)
    (h5 : 1 ≤ d5) (h6 : 1 ≤ d6) (h7 : 1 ≤ d7) (h8 : 1 ≤ d8) (h9 : 1 ≤ d9) :
    calc_time gen_type s duration overlap d0 d1 d2 d3 d4 d5 d6 d7 d8 d9 =
      (calcTimePairs gen_type s duration overlap d0 d1 d2 d3 d4 d5 d6 d7 d8 d9).map
        (fun p => s2t p.1 p.2) ∧
    (calcTimePairs gen_type s duration overlap d0 d1 d2 d3 d4 d5 d6 d7 d8 d9).length = 10 ∧
    ((calcTimePairs gen_type s duration overlap d0 d1 d2 d3 d4 d5 d6 d7 d8 d9).getD 9
      (0, 0)).2 = duration ∧
    (∀ j : ℕ, j < 10 → s ≤ (j : ℤ) →
      (calcTimePairs gen_type s duration overlap d0 d1 d2 d3 d4 d5 d6 d7 d8 d9).getD j
        (0, 0) = (duration, duration)) ∧
    (∀ j : ℕ, j < 10 → ∀ i : ℕ, i < j →
      ((calcTimePairs gen_type s duration overlap d0 d1 d2 d3 d4 d5 d6 d7 d8 d9).getD i
        (0, 0)).2 = duration →
      (calcTimePairs gen_type s duration overlap d0 d1 d2 d3 d4 d5 d6 d7 d8 d9).getD j
        (0, 0) = (duration, duration)) := by
  refine ⟨rfl, ?_⟩
  rcases hgen with ⟨rfl, hov⟩ | ⟨rfl, hov⟩
  · have e : calcTimePairs "music" s duration overlap d0 d1 d2 d3 d4 d5 d6 d7 d8 d9 =
        calcTimePairsGen 30 s duration overlap d0 d1 d2 d3 d4 d5 d6 d7 d8 d9 := rfl
    rw [e]
    exact calcTimePairsGen_spec 30 s duration overlap d0 d1 d2 d3 d4 d5 d6 d7 d8 d9
      (by norm_num) hdur hov hs1 hs10 h0 h1 h2 h3 h4 h5 h6 h7 h8 h9
  · have e : calcTimePairs "audio" s duration overlap d0 d1 d2 d3 d4 d5 d6 d7 d8 d9 =
        calcTimePairsGen 10 s duration overlap d0 d1 d2 d3 d4 d5 d6 d7 d8 d9 := rfl
    rw [e]
    exact calcTimePairsGen_spec 10 s duration overlap d0 d1 d2 d3 d4 d5 d6 d7 d8 d9
      (by norm_num) hdur hov hs1 hs10 h0 h1 h2 h3 h4 h5 h6 h7 h8 h9

/-- Witness for C1 at the concrete input `music, s = 2, duration = 45,
overlap = 10`, all repeats 1. -/
theorem c1_witness :
    (((("music" : String) = "music" ∧ (10 : ℤ) ≤ 30) ∨
        (("music" : String) = "audio" ∧ (10 : ℤ) ≤ 10)) ∧
      (1 : ℤ) ≤ 45 ∧ (1 : ℤ) ≤ 2 ∧ (2 : ℤ) ≤ 10 ∧ (1 : ℤ) ≤ 1) ∧
    (calc_time "music" 2 45 10 1 1 1 1 1 1 1 1 1 1 =
      (calcTimePairs "music" 2 45 10 1 1 1 1 1 1 1 1 1 1).map (fun p => s2t p.1 p.2) ∧
    (calcTimePairs "music" 2 45 10 1 1 1 1 1 1 1 1 1 1).length = 10 ∧
    ((calcTimePairs "music" 2 45 10 1 1 1 1 1 1 1 1 1 1).getD 9 (0, 0)).2 = 45 ∧
    (∀ j : ℕ, j < 10 → (2 : ℤ) ≤ (j : ℤ) →
      (calcTimePairs "music" 2 45 10 1 1 1 1 1 1 1 1 1 1).getD j (0, 0) = (45, 45)) ∧
    (∀ j : ℕ, j < 10 → ∀ i : ℕ, i < j →
      ((calcTimePairs "music" 2 45 10 1 1 1 1 1 1 1 1 1 1).getD i (0, 0)).2 = 45 →
      (calcTimePairs "music" 2 45 10 1 1 1 1 1 1 1 1 1 1).getD j (0, 0) = (45, 45))) :=
  ⟨⟨Or.inl ⟨rfl, by norm_num⟩, by norm_num, by norm_num, by norm_num, le_refl 1⟩,
    c1_calc_time_final_window "music" 2 45 10 1 1 1 1 1 1 1 1 1 1
      (Or.inl ⟨rfl, by norm_num⟩) (by norm_num) (by norm_num) (by norm_num)
      (le_refl 1) (le_refl 1) (le_refl 1) (le_refl 1) (le_refl 1)
      (le_refl 1) (le_refl 1) (le_refl 1) (le_refl 1) (le_refl 1)⟩

/-- C8 counterexample: at `gen_type = "audio"`, `s = 2`, `duration = 10`,
`overlap = 2`, repeats `[3,1,...,1]`, the ten windows reported by
`calc_time` contain exactly 2 distinct windows, not 4 (the first segment
alone already covers `[0, 10]`, so every further slot collapses). -/
theorem c8_counterexample :
    (calc_time "audio" 2 10 2 3 1 1 1 1 1 1 1 1 1).dedup.length = 2 ∧
    ¬ (calc_time "audio" 2 10 2 3 1 1 1 1 1 1 1 1 1).dedup.length = 4 ∧
    (calc_time "audio" 2 10 2 3 1 1 1 1 1 1 1 1 1).getD 9 "" = "00:10 - 00:10" := by
  refine ⟨by decide, by decide, rfl⟩

/-- C8 amended: the same request produces the window `[0, 10]` for the
first slot and the collapsed `[10, 10]` window for all nine others — 2
distinct reported windows with the final entry `[10, 10]`. -/
theorem c8_amended :
    calc_time "audio" 2 10 2 3 1 1 1 1 1 1 1 1 1 =
      "00:00 - 00:10" :: List.replicate 9 "00:10 - 00:10" ∧
    (calc_time "audio" 2 10 2 3 1 1 1 1 1 1 1 1 1).dedup =
      ["00:00 - 00:10", "00:10 - 00:10"] := by
  refine ⟨by decide, by decide⟩

/-! ## Theorems: expiring file registry (claims C2, C10) -/

theorem cleanup_suffix (lifetime now : ℚ) :
    ∀ (files : List (ℚ × String)) (fs : List String),
      ((cleanup lifetime now files fs).1).IsSuffix files := by
  intro files
  induction files with
  | nil => intro fs; exact List.suffix_refl []
  | cons e rest ih =>
    intro fs
    obtain ⟨t, p⟩ := e
    simp only [cleanup]
    split
    · exact ((ih _).trans (List.suffix_cons (t, p) rest))
    · exact List.suffix_refl _

theorem cleanup_fs_subset (lifetime now : ℚ) :
    ∀ (files : List (ℚ × String)) (fs : List String),
      (cleanup lifetime now files fs).2 ⊆ fs := by
  intro files
  induction files with
  | nil => intro fs; exact fun a ha => ha
  | cons e rest ih =>
    intro fs
    obtain ⟨t, p⟩ := e
    simp only [cleanup]
    split
    · refine (ih _).trans ?_
      split
      · exact List.filter_subset' _
      · exact fun a ha => ha
    · exact fun a ha => ha

theorem cleanup_keeps_entry (lifetime now : ℚ) :
    ∀ (files : List (ℚ × String)) (fs : List String) (t : ℚ) (q : String),
      (t, q) ∈ files → now - t ≤ lifetime →
      (t, q) ∈ (cleanup lifetime now files fs).1 := by
  intro files
  induction files with
  | nil => intro fs t q hm _; exact absurd hm (List.not_mem_nil _)
  | cons e rest ih =>
    intro fs t q hm hle
    obtain ⟨t0, p0⟩ := e
    rcases List.mem_cons.1 hm with heq | hmr
    · have h1 : t = t0 := congrArg Prod.fst heq
      have h2 : q = p0 := congrArg Prod.snd heq
      subst h1
      subst h2
      simp only [cleanup]
      rw [if_neg (by linarith)]
      exact List.mem_cons_self _ _
    · simp only [cleanup]
      split
      · exact ih _ t q hmr hle
      · exact List.mem_cons_of_mem _ hmr

theorem cleanup_keeps_file (lifetime now : ℚ) :
    ∀ (files : List (ℚ × String)) (fs : List String) (q : String),
      q ∈ fs → (∀ t, (t, q) ∈ files → now - t ≤ lifetime) →
      q ∈ (cleanup lifetime now files fs).2 := by
  intro files
  induction files with
  | nil => intro fs q hq _; exact hq
  | cons e rest ih =>
    intro fs q hq hall
    obtain ⟨t0, p0⟩ := e
    simp only [cleanup]
    split
    · rename_i hexp
      have hne : p0 ≠ q := by
        intro h
        subst h
        exact absurd (hall t0 (List.mem_cons_self _ _)) (by linarith)
      refine ih _ q ?_ (fun t ht => hall t (List.mem_cons_of_mem _ ht))
      split
      · exact List.mem_filter.2 ⟨hq, by simpa [bne_iff_ne] using hne.symm⟩
      · exact hq
    · exact hq

theorem cleanup_removes (lifetime now : ℚ) :
    ∀ (files : List (ℚ × String)) (fs : List String) (t : ℚ) (q : String),
      files.Pairwise (fun a b => a.1 ≤ b.1) →
      (t, q) ∈ files → lifetime < now - t →
      (t, q) ∉ (cleanup lifetime now files fs).1 ∧
      q ∉ (cleanup lifetime now files fs).2 := by
  intro files
  induction files with
  | nil => intro fs t q _ hm _; exact absurd hm (List.not_mem_nil _)
  | cons e rest ih =>
    intro fs t q hpw hm hexp
    obtain ⟨t0, p0⟩ := e
    rw [List.pairwise_cons] at hpw
    obtain ⟨hhead, hrest⟩ := hpw
    by_cases hexp0 : lifetime < now - t0
    · have hstep : cleanup lifetime now ((t0, p0) :: rest) fs =
          cleanup lifetime now rest
            (if p0 ∈ fs then fs.filter (fun r => r != p0) else fs) := by
        simp only [cleanup]
        rw [if_pos hexp0]
      rw [hstep]
      rcases List.mem_cons.1 hm with heq | hmr
      · have h1 : t = t0 := congrArg Prod.fst heq
        have h2 : q = p0 := congrArg Prod.snd heq
        subst h1
        subst h2
        constructor
        · by_cases hin : (t, q) ∈ rest
          · exact (ih _ t q hrest hin hexp).1
          · intro hcontra
            exact hin ((cleanup_suffix lifetime now rest _).subset hcontra)
        · have hqout : q ∉ (if q ∈ fs then fs.filter (fun r => r != q) else fs) := by
            split
            · intro hcontra
              have := List.of_mem_filter hcontra
              simp [bne_iff_ne] at this
            · assumption
          intro hcontra
          exact hqout ((cleanup_fs_subset lifetime now rest _) hcontra)
      · exact ih _ t q hrest hmr hexp
    · exfalso
      rcases List.mem_cons.1 hm with heq | hmr
      · have h1 : t = t0 := congrArg Prod.fst heq
        subst h1
        exact hexp0 hexp
      · have := hhead _ hmr
        simp only at this
        exact hexp0 (by linarith)

theorem runAdds_sorted (lifetime : ℚ) :
    ∀ (ops : List (ℚ × String)) (st : CleanerState) (now : ℚ),
      st.files.Pairwise (fun a b => a.1 ≤ b.1) →
      (∀ e ∈ st.files, ∀ op ∈ ops, e.1 ≤ op.1) →
      (∀ e ∈ st.files, e.1 ≤ now) →
      ops.Pairwise (fun a b => a.1 ≤ b.1) →
      (∀ op ∈ ops, op.1 ≤ now) →
      (runAdds lifetime ops st).files.Pairwise (fun a b => a.1 ≤ b.1) ∧
      (∀ e ∈ (runAdds lifetime ops st).files, e.1 ≤ now) := by
  intro ops
  induction ops with
  | nil => intro st now h1 _ h3 _ _; exact ⟨h1, h3⟩
  | cons op rest ih =>
    intro st now h1 h2 h3 h4 h5
    have hstep : runAdds lifetime (op :: rest) st =
        runAdds lifetime rest (addFile lifetime op.1 op.2 st) := rfl
    rw [hstep]
    have hsub : (cleanup lifetime op.1 st.files st.fs).1 ⊆ st.files :=
      (cleanup_suffix lifetime op.1 st.files st.fs).subset
    have hfiles : (addFile lifetime op.1 op.2 st).files =
        (cleanup lifetime op.1 st.files st.fs).1 ++ [(op.1, op.2)] := rfl
    rw [List.pairwise_cons] at h4
    obtain ⟨h4head, h4rest⟩ := h4
    refine ih (addFile lifetime op.1 op.2 st) now ?_ ?_ ?_ h4rest
      (fun o ho => h5 o (List.mem_cons_of_mem _ ho))
    · rw [hfiles, List.pairwise_append]
      refine ⟨List.Pairwise.sublist (cleanup_suffix lifetime op.1 st.files st.fs).sublist h1, ?_, ?_⟩
      · simp
      · intro a ha b hb
        rw [List.mem_singleton] at hb
        subst hb
        exact h2 a (hsub ha) op (List.mem_cons_self _ _)
    · rw [hfiles]
      intro e he o ho
      rcases List.mem_append.1 he with hl | hr
      · exact h2 e (hsub hl) o (List.mem_cons_of_mem _ ho)
      · rw [List.mem_singleton] at hr
        subst hr
        exact h4head o ho
    · rw [hfiles]
      intro e he
      rcases List.mem_append.1 he with hl | hr
      · exact h3 e (hsub hl)
      · rw [List.mem_singleton] at hr
        subst hr
        exact h5 op (List.mem_cons_self _ _)

/-- C2 counterexample: with the same path registered twice
(`add("a")` at time 0 and at time 1000, files `a` and `b` on disk,
lifetime 3600), the `add("b")` call at time 3601 unlinks file `"a"` even
though `"a"` was registered at `T = 1000` and `3601 - 1000 ≤ 3600`: the
expired older entry for the same path deletes the file out from under the
younger registration. -/
theorem c2_counterexample :
    ((1000 : ℚ), "a") ∈ (runAdds 3600 [(0, "a"), (1000, "a")] ⟨[], ["a", "b"]⟩).files ∧
    (3601 : ℚ) - 1000 ≤ 3600 ∧
    "a" ∈ (runAdds 3600 [(0, "a"), (1000, "a")] ⟨[], ["a", "b"]⟩).fs ∧
    "a" ∉ (addFile 3600 3601 "b" (runAdds 3600 [(0, "a"), (1000, "a")] ⟨[], ["a", "b"]⟩)).fs := by
  refine ⟨by norm_num [runAdds, addFile, cleanup], by norm_num,
    by norm_num [runAdds, addFile, cleanup], by norm_num [runAdds, addFile, cleanup]⟩

/-- C2 amended: for any monotone sequence of `add` calls (constant
lifetime `≥ 0`) and any further `add` at time `now`: an entry registered
at `T` with `now - T ≤ lifetime` is never removed; a file whose every
registration is within the lifetime is never unlinked (the restriction to
*every* registration is what the duplicate-path counterexample forces);
and every entry with `now - T > lifetime` is removed during the call with
its path deleted from the filesystem (the deletion itself is guarded by an
existence check, so an already-missing file is skipped rather than
raising). -/
theorem c2_expiry_amended (lifetime now : ℚ) (p : String) (fs0 : List String)
    (ops : List (ℚ × String))
    (hl : 0 ≤ lifetime)
    (hops : ops.Pairwise (fun a b => a.1 ≤ b.1))
    (hbound : ∀ op ∈ ops, op.1 ≤ now) :
    (∀ t q, (t, q) ∈ (runAdds lifetime ops ⟨[], fs0⟩).files → now - t ≤ lifetime →
      (t, q) ∈ (addFile lifetime now p (runAdds lifetime ops ⟨[], fs0⟩)).files) ∧
    (∀ q, q ∈ (runAdds lifetime ops ⟨[], fs0⟩).fs →
      (∀ t, (t, q) ∈ (runAdds lifetime ops ⟨[], fs0⟩).files → now - t ≤ lifetime) →
      q ∈ (addFile lifetime now p (runAdds lifetime ops ⟨[], fs0⟩)).fs) ∧
    (∀ t q, (t, q) ∈ (runAdds lifetime ops ⟨[], fs0⟩).files → lifetime < now - t →
      (t, q) ∉ (addFile lifetime now p (runAdds lifetime ops ⟨[], fs0⟩)).files ∧
      q ∉ (addFile lifetime now p (runAdds lifetime ops ⟨[], fs0⟩)).fs) := by
  set st := runAdds lifetime ops ⟨[], fs0⟩ with hst
  have hsorted : st.files.Pairwise (fun a b => a.1 ≤ b.1) :=
    (runAdds_sorted lifetime ops ⟨[], fs0⟩ now (by simp) (by simp) (by simp)
      hops hbound).1
  have hfs' : (addFile lifetime now p st).fs = (cleanup lifetime now st.files st.fs).2 := rfl
  have hfiles' : (addFile lifetime now p st).files =
      (cleanup lifetime now st.files st.fs).1 ++ [(now, p)] := rfl
  refine ⟨?_, ?_, ?_⟩
  · intro t q hm hle
    rw [hfiles']
    exact List.mem_append.2 (Or.inl (cleanup_keeps_entry lifetime now st.files st.fs t q hm hle))
  · intro q hq hall
    rw [hfs']
    exact cleanup_keeps_file lifetime now st.files st.fs q hq hall
  · intro t q hm hexp
    have hrem := cleanup_removes lifetime now st.files st.fs t q hsorted hm hexp
    constructor
    · rw [hfiles']
      intro hcontra
      rcases List.mem_append.1 hcontra with hl' | hr'
      · exact hrem.1 hl'
      · rw [List.mem_singleton] at hr'
        have ht : t = now := congrArg Prod.fst hr'
        subst ht
        simp only [sub_self] at hexp
        linarith
    · rw [hfs']
      exact hrem.2

/-- Witness for C2 (amended) at lifetime 3600, one registration at time 0,
and a further `add("b")` at time 4000: the expired entry `(0, "a")` is
removed and file `"a"` deleted. -/
theorem c2_witness :
    ((0 : ℚ) ≤ 3600 ∧
      ([((0 : ℚ), "a")] : List (ℚ × String)).Pairwise (fun a b => a.1 ≤ b.1) ∧
      (∀ op ∈ ([((0 : ℚ), "a")] : List (ℚ × String)), op.1 ≤ (4000 : ℚ))) ∧
    ((∀ t q, (t, q) ∈ (runAdds 3600 [(0, "a")] ⟨[], ["a"]⟩).files → (4000 : ℚ) - t ≤ 3600 →
      (t, q) ∈ (addFile 3600 4000 "b" (runAdds 3600 [(0, "a")] ⟨[], ["a"]⟩)).files) ∧
    (∀ q, q ∈ (runAdds 3600 [(0, "a")] ⟨[], ["a"]⟩).fs →
      (∀ t, (t, q) ∈ (runAdds 3600 [(0, "a")] ⟨[], ["a"]⟩).files → (4000 : ℚ) - t ≤ 3600) →
      q ∈ (addFile 3600 4000 "b" (runAdds 3600 [(0, "a")] ⟨[], ["a"]⟩)).fs) ∧
    (∀ t q, (t, q) ∈ (runAdds 3600 [(0, "a")] ⟨[], ["a"]⟩).files → (3600 : ℚ) < 4000 - t →
      (t, q) ∉ (addFile 3600 4000 "b" (runAdds 3600 [(0, "a")] ⟨[], ["a"]⟩)).files ∧
      q ∉ (addFile 3600 4000 "b" (runAdds 3600 [(0, "a")] ⟨[], ["a"]⟩)).fs)) :=
  ⟨⟨by norm_num, by simp, by simp⟩,
    c2_expiry_amended 3600 4000 "b" ["a"] [(0, "a")] (by norm_num) (by simp) (by simp)⟩

/-- C10: the registry's `files` list is an invariant-sorted queue — the
sweep (`_cleanup`) only ever removes a prefix (its result is a suffix of
the input), and along any `add` trace with non-decreasing `time.time()`
values starting from an empty registry the entries are sorted by
registration time and bounded by the last clock value. -/
theorem c10_files_sorted_invariant :
    (∀ (lifetime now : ℚ) (files : List (ℚ × String)) (fs : List String),
      ((cleanup lifetime now files fs).1).IsSuffix files) ∧
    (∀ (lifetime : ℚ) (ops : List (ℚ × String)) (now : ℚ) (fs0 : List String),
      ops.Pairwise (fun a b => a.1 ≤ b.1) → (∀ op ∈ ops, op.1 ≤ now) →
      (runAdds lifetime ops ⟨[], fs0⟩).files.Pairwise (fun a b => a.1 ≤ b.1) ∧
      (∀ e ∈ (runAdds lifetime ops ⟨[], fs0⟩).files, e.1 ≤ now)) := by
  refine ⟨cleanup_suffix, ?_⟩
  intro lifetime ops now fs0 hops hbound
  exact runAdds_sorted lifetime ops ⟨[], fs0⟩ now (by simp) (by simp) (by simp) hops hbound

/-- Witness for C10 on the concrete trace `add("a")@1, add("b")@5` with
lifetime 3600 and an initially empty registry. -/
theorem c10_witness :
    (([((1 : ℚ), "a"), (5, "b")] : List (ℚ × String)).Pairwise (fun a b => a.1 ≤ b.1) ∧
      (∀ op ∈ ([((1 : ℚ), "a"), (5, "b")] : List (ℚ × String)), op.1 ≤ (5 : ℚ))) ∧
    ((cleanup 3600 5 [((1 : ℚ), "a")] ["a"]).1).IsSuffix [((1 : ℚ), "a")] ∧
    ((runAdds 3600 [((1 : ℚ), "a"), (5, "b")] ⟨[], []⟩).files.Pairwise
      (fun a b => a.1 ≤ b.1) ∧
      (∀ e ∈ (runAdds 3600 [((1 : ℚ), "a"), (5, "b")] ⟨[], []⟩).files, e.1 ≤ (5 : ℚ))) :=
  ⟨⟨by norm_num, by norm_num⟩,
    c10_files_sorted_invariant.1 3600 5 [((1 : ℚ), "a")] ["a"],
    c10_files_sorted_invariant.2 3600 [((1 : ℚ), "a"), (5, "b")] 5 []
      (by norm_num) (by norm_num)⟩

/-! ## Theorems: validation ordering in `predict_full` (claim C3) -/

/-- C3 counterexample: a call with `generate_bg_image` set, no image, a
non-empty global prompt and `temperature = -1` *is* rejected with the
temperature validation error, but only after the background image has been
generated — a model load and a file creation happen before the error, so
the rejection is not free of side effects for every call. -/
theorem c3_counterexample :
    (predict_full_pre true none "x" "" (-1) 0 0 "Default" false).2 =
      some "Temperature must be >= 0." ∧
    (predict_full_pre true none "x" "" (-1) 0 0 "Default" false).1 = [Effect.imageGen] ∧
    (predict_full_pre true none "x" "" (-1) 0 0 "Default" false).1 ≠ [] := by
  refine ⟨?_, ?_, ?_⟩ <;> (norm_num [predict_full_pre]; try decide)

/-- C3 amended: whenever the background-image block does not fire
(`generate_bg_image` unset, or an image already supplied, or both prompts
empty — it is unset by default), any call with a negative `temperature`,
`topk` or `topp` raises a validation error with an empty effect trace: no
image, no diffusion load, no model load, no seed set and no generation
precede the error. -/
theorem c3_validation_amended (generate_bg_image : Bool) (image : Option String)
    (global_prompt p0 : String) (temperature topk topp : ℚ)
    (decoder : String) (model_loaded : Bool)
    (hno : ¬(generate_bg_image = true ∧ image = none ∧ (global_prompt ≠ "" ∨ p0 ≠ "")))
    (hbad : temperature < 0 ∨ topk < 0 ∨ topp < 0) :
    (predict_full_pre generate_bg_image image global_prompt p0 temperature topk topp
      decoder model_loaded).1 = [] ∧
    (predict_full_pre generate_bg_image image global_prompt p0 temperature topk topp
      decoder model_loaded).2.isSome = true := by
  rcases hbad with h | h | h
  · simp [predict_full_pre, if_neg hno, if_pos h]
  · by_cases h1 : temperature < 0
    · simp [predict_full_pre, if_neg hno, if_pos h1]
    · simp [predict_full_pre, if_neg hno, if_neg h1, if_pos h]
  · by_cases h1 : temperature < 0
    · simp [predict_full_pre, if_neg hno, if_pos h1]
    · by_cases h2 : topk < 0
      · simp [predict_full_pre, if_neg hno, if_neg h1, if_pos h2]
      · simp [predict_full_pre, if_neg hno, if_neg h1, if_neg h2, if_pos h]

/-- Witness for C3 (amended): default `generate_bg_image = false` and
`temperature = -1`. -/
theorem c3_witness :
    (¬((false : Bool) = true ∧ (none : Option String) = none ∧
        (("" : String) ≠ "" ∨ ("" : String) ≠ "")) ∧
      ((-1 : ℚ) < 0 ∨ (0 : ℚ) < 0 ∨ (0 : ℚ) < 0)) ∧
    ((predict_full_pre false none "" "" (-1) 0 0 "Default" false).1 = [] ∧
      (predict_full_pre false none "" "" (-1) 0 0 "Default" false).2.isSome = true) :=
  ⟨⟨by simp, Or.inl (by norm_num)⟩,
    c3_validation_amended false none "" "" (-1) 0 0 "Default" false
      (by simp) (Or.inl (by norm_num))⟩

/-! ## Theorems: output persistence (claim C7) -/

theorem nextSuffix_spec (stem : String) (fs : List OutName) :
    ∀ (fuel counter : ℕ),
      (∃ m, counter ≤ m ∧ m ≤ counter + fuel ∧ (stem, some m) ∉ fs) →
      ∃ n, nextSuffix stem fs counter fuel = (stem, some n) ∧ counter ≤ n ∧
        (stem, some n) ∉ fs ∧ ∀ m, counter ≤ m → m < n → (stem, some m) ∈ fs := by
  intro fuel
  induction fuel with
  | zero =>
    intro counter hex
    obtain ⟨m, hm1, hm2, hm3⟩ := hex
    have hmc : m = counter := by omega
    subst hmc
    exact ⟨m, rfl, le_refl _, hm3, fun m' h1 h2 => by omega⟩
  | succ f ih =>
    intro counter hex
    obtain ⟨m, hm1, hm2, hm3⟩ := hex
    by_cases hc : (stem, some counter) ∈ fs
    · have hmne : m ≠ counter := by
        intro h
        subst h
        exact hm3 hc
      simp only [nextSuffix]
      rw [if_pos hc]
      obtain ⟨n, heq, hn1, hn2, hn3⟩ := ih (counter + 1) ⟨m, by omega, by omega, hm3⟩
      refine ⟨n, heq, by omega, hn2, ?_⟩
      intro m' h1 h2
      by_cases hme : m' = counter
      · subst hme
        exact hc
      · exact hn3 m' (by omega) h2
    · simp only [nextSuffix]
      rw [if_neg hc]
      exact ⟨counter, rfl, le_refl _, hc, fun m' h1 h2 => by omega⟩

theorem exists_free_suffix (stem : String) (fs : List OutName) :
    ∃ m, 1 ≤ m ∧ m ≤ 1 + (fs.length + 1) ∧ (stem, some m) ∉ fs := by
  by_contra hcon
  push_neg at hcon
  have hsub : ((List.range (fs.length + 2)).map (fun i => (stem, some (i + 1)))) ⊆ fs := by
    intro x hx
    simp only [List.mem_map, List.mem_range] at hx
    obtain ⟨i, hi, rfl⟩ := hx
    exact hcon (i + 1) (by omega) (by omega)
  have hnd : ((List.range (fs.length + 2)).map (fun i => (stem, some (i + 1)))).Nodup := by
    refine List.Nodup.map ?_ (List.nodup_range _)
    intro a b hab
    have := congrArg Prod.snd hab
    simpa using this
  have hlen := (List.subperm_of_subset hnd hsub).length_le
  rw [List.length_map, List.length_range] at hlen
  omega

theorem save_target_spec (stem : String) (fs : List OutName) :
    save_target stem fs ∉ fs ∧
    (save_target stem fs).1 = stem ∧
    ((save_target stem fs).2 = none ↔ (stem, none) ∉ fs) ∧
    (∀ n, (save_target stem fs).2 = some n →
      1 ≤ n ∧ (stem, some n) ∉ fs ∧ ∀ m, 1 ≤ m → m < n → (stem, some m) ∈ fs) := by
  by_cases hc : (stem, none) ∈ fs
  · have hstep : save_target stem fs = nextSuffix stem fs 1 (fs.length + 1) := by
      unfold save_target
      rw [if_pos hc]
    obtain ⟨n, heq, hn1, hn2, hn3⟩ :=
      nextSuffix_spec stem fs (fs.length + 1) 1 (exists_free_suffix stem fs)
    rw [hstep, heq]
    refine ⟨hn2, rfl, ?_, ?_⟩
    · constructor
      · intro h
        exact absurd h (by simp)
      · intro h
        exact absurd hc h
    · intro n' hins
      have : n = n' := by
        have := Option.some.inj hins
        exact this
      subst this
      exact ⟨hn1, hn2, hn3⟩
  · have hstep : save_target stem fs = (stem, none) := by
      unfold save_target
      rw [if_neg hc]
    rw [hstep]
    refine ⟨hc, rfl, by simp [hc], ?_⟩
    intro n hins
    exact absurd hins (by simp)

/-- C7: the target chosen by `save_outputs` for a given seed stem is never
an existing path (so a second call with the same seed on the same day
never overwrites the first), the bare name is used exactly when it is
free, a suffixed name `(n)` is used only with the smallest index `n ≥ 1`
whose path is free while the bare name and all smaller indices are taken,
and consequently three successive saves into a directory with no entry for
the stem produce the bare name, then `(1)`, then `(2)`. -/
theorem c7_save_outputs_no_overwrite (stem : String) (fs : List OutName) :
    save_target stem fs ∉ fs ∧
    (save_target stem fs).1 = stem ∧
    ((save_target stem fs).2 = none ↔ (stem, none) ∉ fs) ∧
    (∀ n, (save_target stem fs).2 = some n →
      1 ≤ n ∧ (stem, some n) ∉ fs ∧ ∀ m, 1 ≤ m → m < n → (stem, some m) ∈ fs) ∧
    ((∀ x ∈ fs, x.1 ≠ stem) →
      (save_output stem fs).1 = (stem, none) ∧
      (save_output stem (save_output stem fs).2).1 = (stem, some 1) ∧
      (save_output stem (save_output stem (save_output stem fs).2).2).1 =
        (stem, some 2)) := by
  obtain ⟨hfree, hfst, hbare, hsome⟩ := save_target_spec stem fs
  refine ⟨hfree, hfst, hbare, hsome, ?_⟩
  intro hnostem
  have h1 : save_target stem fs = (stem, none) := by
    have hnm : (stem, none) ∉ fs := fun h => hnostem _ h rfl
    unfold save_target
    rw [if_neg hnm]
  have hfs1 : (save_output stem fs).2 = (stem, none) :: fs := by
    simp only [save_output, h1]
  have h2 : save_target stem ((stem, none) :: fs) = (stem, some 1) := by
    obtain ⟨hf, _, _, hs⟩ := save_target_spec stem ((stem, none) :: fs)
    rcases hmatch : (save_target stem ((stem, none) :: fs)).2 with _ | n
    · exfalso
      obtain ⟨hb1, _⟩ := save_target_spec stem ((stem, none) :: fs)
      have := (save_target_spec stem ((stem, none) :: fs)).2.2.1.1 hmatch
      exact this (List.mem_cons_self _ _)
    · obtain ⟨hn1, hn2, hn3⟩ := hs n hmatch
      have hne : n = 1 := by
        by_contra hne1
        have h1mem := hn3 1 (le_refl 1) (by omega)
        rcases List.mem_cons.1 h1mem with habs | habs
        · exact absurd (congrArg Prod.snd habs) (by simp)
        · exact hnostem _ habs rfl
      subst hne
      have hfst2 := (save_target_spec stem ((stem, none) :: fs)).2.1
      exact Prod.ext hfst2 hmatch
  have hfs2 : (save_output stem ((stem, none) :: fs)).2 =
      (stem, some 1) :: (stem, none) :: fs := by
    simp only [save_output, h2]
  have h3 : save_target stem ((stem, some 1) :: (stem, none) :: fs) = (stem, some 2) := by
    obtain ⟨hf, _, _, hs⟩ := save_target_spec stem ((stem, some 1) :: (stem, none) :: fs)
    rcases hmatch : (save_target stem ((stem, some 1) :: (stem, none) :: fs)).2 with _ | n
    · exfalso
      have := (save_target_spec stem ((stem, some 1) :: (stem, none) :: fs)).2.2.1.1 hmatch
      exact this (List.mem_cons_of_mem _ (List.mem_cons_self _ _))
    · obtain ⟨hn1, hn2, hn3⟩ := hs n hmatch
      have hne : n = 2 := by
        by_contra hne2
        by_cases hlt : n = 1
        · subst hlt
          exact hn2 (List.mem_cons_self _ _)
        · have h2mem := hn3 2 (by omega) (by omega)
          rcases List.mem_cons.1 h2mem with habs | habs
          · exact absurd (congrArg Prod.snd habs) (by simp)
          · rcases List.mem_cons.1 habs with habs2 | habs2
            · exact absurd (congrArg Prod.snd habs2) (by simp)
            · exact hnostem _ habs2 rfl
      subst hne
      have hfst3 := (save_target_spec stem ((stem, some 1) :: (stem, none) :: fs)).2.1
      exact Prod.ext hfst3 hmatch
  refine ⟨?_, ?_, ?_⟩
  · simp only [save_output, h1]
  · rw [hfs1]
    simp only [save_output, h2]
  · rw [hfs1, hfs2]
    simp only [save_output, h3]

/-- Witness for C7 in a directory already holding `123.wav` and
`123(1).wav`: the chosen target is fresh, suffixed, and minimal. -/
theorem c7_witness :
    (save_target "123" [("123", none), ("123", some 1)] ∉
      [("123", none), ("123", some 1)] ∧
    (save_target "123" [("123", none), ("123", some 1)]).1 = "123" ∧
    ((save_target "123" [("123", none), ("123", some 1)]).2 = none ↔
      ("123", (none : Option ℕ)) ∉ [("123", none), ("123", some 1)]) ∧
    (∀ n, (save_target "123" [("123", none), ("123", some 1)]).2 = some n →
      1 ≤ n ∧ ("123", some n) ∉ [("123", none), ("123", some 1)] ∧
      ∀ m, 1 ≤ m → m < n → ("123", some m) ∈ [("123", none), ("123", some 1)]) ∧
    ((∀ x ∈ [("123", none), ("123", some 1)], x.1 ≠ "123") →
      (save_output "123" [("123", none), ("123", some 1)]).1 = ("123", none) ∧
      (save_output "123" (save_output "123" [("123", none), ("123", some 1)]).2).1 =
        ("123", some 1) ∧
      (save_output "123"
        (save_output "123" (save_output "123" [("123", none), ("123", some 1)]).2).2).1 =
        ("123", some 2))) ∧
    save_target "123" [("123", none), ("123", some 1)] = ("123", some 2) :=
  ⟨c7_save_outputs_no_overwrite "123" [("123", none), ("123", some 1)], by decide⟩

/-! ## Theorems: continuation preprocessing (claims C4, C9) -/

theorem normalize_audio_length (xs : List ℚ) : (normalize_audio xs).length = xs.length := by
  simp [normalize_audio]

theorem pySlice_take (xs : List ℚ) (k : ℤ) (hk : 0 ≤ k) :
    pySlice xs 0 k = xs.take k.toNat := by
  simp only [pySlice, pySliceIdx]
  rw [if_neg (by omega : ¬ (0:ℤ) < 0), if_neg (not_lt.2 hk)]
  have h0 : (min (0:ℤ) (xs.length : ℤ)).toNat = 0 := by omega
  rw [h0, List.drop_zero]
  by_cases hkl : k ≤ (xs.length : ℤ)
  · rw [min_eq_left hkl]
  · rw [min_eq_right (le_of_not_le hkl), Int.toNat_natCast, List.take_length,
      List.take_of_length_le (by omega)]

theorem pySlice_drop (xs : List ℚ) (k : ℤ) (hk : 0 ≤ k) :
    pySlice xs k (xs.length : ℤ) = xs.drop k.toNat := by
  simp only [pySlice, pySliceIdx]
  rw [if_neg (not_lt.2 hk), if_neg (by omega : ¬ ((xs.length : ℤ) < 0)), min_self]
  have hlen : ((xs.length : ℤ)).toNat = xs.length := by omega
  rw [hlen, List.take_length]
  by_cases hkl : k ≤ (xs.length : ℤ)
  · rw [min_eq_left hkl]
  · rw [min_eq_right (le_of_not_le hkl), Int.toNat_natCast, List.drop_length]
    exact (List.drop_eq_nil_of_le (by omega)).symm

theorem pySlice_length_of_range (xs : List ℚ) (lo hi : ℤ)
    (h0 : 0 ≤ lo) (hlh : lo ≤ hi) (hhl : hi ≤ (xs.length : ℤ)) :
    ((pySlice xs lo hi).length : ℤ) = hi - lo := by
  simp only [pySlice, pySliceIdx]
  rw [if_neg (not_lt.2 h0), if_neg (not_lt.2 (le_trans h0 hlh))]
  rw [min_eq_left (le_trans hlh hhl), min_eq_left hhl]
  rw [List.length_drop, List.length_take]
  omega

theorem pyInt_eq_floor (x : ℚ) (hx : 0 ≤ x) : pyInt x = ⌊x⌋ := if_pos hx

theorem pyInt_nonneg (x : ℚ) (hx : 0 ≤ x) : 0 ≤ pyInt x := by
  rw [pyInt_eq_floor x hx]
  exact Int.floor_nonneg.2 hx

theorem prepCore_split_spec (mq : ℚ) (SR : ℕ) (xs : List ℚ) (ts te dur : ℚ)
    (hmq : 0 < mq) (hsr : 1 ≤ SR) (hts : 0 ≤ ts) (hte : 0 ≤ te)
    (hbig : (xs.length : ℚ) / (SR : ℚ) - ts - te > mq) :
    ∃ p,
      (do_predictions_prepCore mq SR xs ts te dur).sampleP = some p ∧
      p ++ (do_predictions_prepCore mq SR xs ts te dur).sampleM =
        pySlice (normalize_audio xs)
          (do_predictions_prepCore mq SR xs ts te dur).trimLo
          (do_predictions_prepCore mq SR xs ts te dur).trimHi ∧
      p.length + (do_predictions_prepCore mq SR xs ts te dur).sampleM.length =
        (pySlice (normalize_audio xs)
          (do_predictions_prepCore mq SR xs ts te dur).trimLo
          (do_predictions_prepCore mq SR xs ts te dur).trimHi).length ∧
      ((do_predictions_prepCore mq SR xs ts te dur).sampleM.length : ℚ) <
        (SR : ℚ) * mq + 2 ∧
      (do_predictions_prepCore mq SR xs ts te dur).maximum_size = mq ∧
      (∀ (convert generate : List ℚ → List ℚ),
        continuation_outputs (do_predictions_prepCore mq SR xs ts te dur) convert generate =
          convert p ++ generate (do_predictions_prepCore mq SR xs ts te dur).sampleM) := by
  have hsrq : (1 : ℚ) ≤ (SR : ℚ) := by exact_mod_cast hsr
  have hsr0 : (0 : ℚ) < (SR : ℚ) := by linarith
  have h1 : ¬ ts ≥ (xs.length : ℚ) / (SR : ℚ) := by intro h; linarith
  have h2 : ¬ te ≥ (xs.length : ℚ) / (SR : ℚ) := by intro h; linarith
  have h3 : ¬ ts + te ≥ (xs.length : ℚ) / (SR : ℚ) := by intro h; linarith
  have h4 : (xs.length : ℚ) / (SR : ℚ) - (ts + te) > mq := by linarith
  simp only [do_predictions_prepCore, normalize_audio_length, if_neg h1, if_neg h2,
    if_neg h3, if_pos h4]
  have hcut : 0 ≤ (SR : ℚ) * ((xs.length : ℚ) / (SR : ℚ) - (ts + te) - mq) := by
    have h' : 0 ≤ (xs.length : ℚ) / (SR : ℚ) - (ts + te) - mq := by linarith
    positivity
  have hk0 : 0 ≤ pyInt ((SR : ℚ) * ((xs.length : ℚ) / (SR : ℚ) - (ts + te) - mq)) :=
    pyInt_nonneg _ hcut
  have hlo0 : 0 ≤ pyInt ((SR : ℚ) * ts) := pyInt_nonneg _ (by positivity)
  have hhiq : 0 ≤ (SR : ℚ) * ((xs.length : ℚ) / (SR : ℚ) - te) := by
    have h' : 0 ≤ (xs.length : ℚ) / (SR : ℚ) - te := by linarith
    positivity
  have hSRlen : (SR : ℚ) * ((xs.length : ℚ) / (SR : ℚ)) = (xs.length : ℚ) := by
    field_simp
  have hSRte : (SR : ℚ) * ((xs.length : ℚ) / (SR : ℚ) - te) =
      (xs.length : ℚ) - (SR : ℚ) * te := by
    rw [mul_sub, hSRlen]
  have hSRcut : (SR : ℚ) * ((xs.length : ℚ) / (SR : ℚ) - (ts + te) - mq) =
      (xs.length : ℚ) - (SR : ℚ) * ts - (SR : ℚ) * te - (SR : ℚ) * mq := by
    rw [mul_sub, mul_sub, mul_add, hSRlen]
    ring
  have hlohi : pyInt ((SR : ℚ) * ts) ≤
      pyInt ((SR : ℚ) * ((xs.length : ℚ) / (SR : ℚ) - te)) := by
    rw [pyInt_eq_floor _ (by positivity), pyInt_eq_floor _ hhiq]
    apply Int.floor_le_floor
    have h' : ts ≤ (xs.length : ℚ) / (SR : ℚ) - te := by linarith
    nlinarith
  have hhilen : pyInt ((SR : ℚ) * ((xs.length : ℚ) / (SR : ℚ) - te)) ≤
      (xs.length : ℤ) := by
    rw [pyInt_eq_floor _ hhiq]
    have h' : (SR : ℚ) * ((xs.length : ℚ) / (SR : ℚ) - te) ≤ (xs.length : ℚ) := by
      rw [hSRte]
      nlinarith
    calc ⌊(SR : ℚ) * ((xs.length : ℚ) / (SR : ℚ) - te)⌋
        ≤ ⌊(xs.length : ℚ)⌋ := Int.floor_le_floor h'
      _ = (xs.length : ℤ) := Int.floor_natCast _
  have hTlen : ((pySlice (normalize_audio xs) (pyInt ((SR : ℚ) * ts))
      (pyInt ((SR : ℚ) * ((xs.length : ℚ) / (SR : ℚ) - te)))).length : ℤ) =
      pyInt ((SR : ℚ) * ((xs.length : ℚ) / (SR : ℚ) - te)) - pyInt ((SR : ℚ) * ts) := by
    apply pySlice_length_of_range _ _ _ hlo0 hlohi
    rw [normalize_audio_length]
    exact hhilen
  refine ⟨_, rfl, ?_, ?_, ?_, by trivial, ?_⟩
  · rw [pySlice_take _ _ hk0, pySlice_drop _ _ hk0, List.take_append_drop]
  · rw [pySlice_take _ _ hk0, pySlice_drop _ _ hk0, List.length_take, List.length_drop]
    omega
  · rw [pySlice_drop _ _ hk0, List.length_drop]
    set T := pySlice (normalize_audio xs) (pyInt ((SR : ℚ) * ts))
      (pyInt ((SR : ℚ) * ((xs.length : ℚ) / (SR : ℚ) - te))) with hT
    set k := pyInt ((SR : ℚ) * ((xs.length : ℚ) / (SR : ℚ) - (ts + te) - mq)) with hk
    by_cases hcase : T.length ≤ k.toNat
    · rw [Nat.sub_eq_zero_of_le hcase]
      push_cast
      nlinarith
    · have hklen : k.toNat < T.length := lt_of_not_le hcase
      have hks : ((T.length - k.toNat : ℕ) : ℚ) = (T.length : ℚ) - (k.toNat : ℚ) := by
        push_cast [Nat.cast_sub (le_of_lt hklen)]
        ring
      rw [hks]
      have hTq : (T.length : ℚ) =
          ((pyInt ((SR : ℚ) * ((xs.length : ℚ) / (SR : ℚ) - te)) : ℤ) : ℚ) -
          ((pyInt ((SR : ℚ) * ts) : ℤ) : ℚ) := by
        exact_mod_cast congrArg (fun z : ℤ => (z : ℚ)) hTlen
      have hkq : ((k.toNat : ℕ) : ℚ) = ((k : ℤ) : ℚ) := by
        exact_mod_cast Int.toNat_of_nonneg hk0
      rw [hTq, hkq]
      have hfl1 : ((pyInt ((SR : ℚ) * ((xs.length : ℚ) / (SR : ℚ) - te)) : ℤ) : ℚ) ≤
          (xs.length : ℚ) - (SR : ℚ) * te := by
        rw [pyInt_eq_floor _ hhiq, ← hSRte]
        exact Int.floor_le _
      have hfl2 : (SR : ℚ) * ts - 1 < ((pyInt ((SR : ℚ) * ts) : ℤ) : ℚ) := by
        rw [pyInt_eq_floor _ (by positivity)]
        exact Int.sub_one_lt_floor _
      have hfl3 : (xs.length : ℚ) - (SR : ℚ) * ts - (SR : ℚ) * te - (SR : ℚ) * mq - 1 <
          ((k : ℤ) : ℚ) := by
        rw [hk, pyInt_eq_floor _ hcut, ← hSRcut]
        exact Int.sub_one_lt_floor _
      linarith
  · intro convert generate
    rfl

theorem trim_idx_bounds (SR len : ℕ) (a b : ℚ) (hsr : 1 ≤ SR)
    (ha : 0 ≤ a) (hb : 0 ≤ b) (hab : a + b ≤ (len : ℚ) / (SR : ℚ)) :
    0 ≤ pyInt ((SR : ℚ) * a) ∧
    pyInt ((SR : ℚ) * a) ≤ pyInt ((SR : ℚ) * ((len : ℚ) / (SR : ℚ) - b)) ∧
    pyInt ((SR : ℚ) * ((len : ℚ) / (SR : ℚ) - b)) ≤ (len : ℤ) := by
  have hsrq : (1 : ℚ) ≤ (SR : ℚ) := by exact_mod_cast hsr
  have hsr0 : (0 : ℚ) < (SR : ℚ) := by linarith
  have harg : 0 ≤ (SR : ℚ) * ((len : ℚ) / (SR : ℚ) - b) := by
    have h' : 0 ≤ (len : ℚ) / (SR : ℚ) - b := by linarith
    positivity
  refine ⟨pyInt_nonneg _ (by positivity), ?_, ?_⟩
  · rw [pyInt_eq_floor _ (by positivity), pyInt_eq_floor _ harg]
    apply Int.floor_le_floor
    nlinarith
  · rw [pyInt_eq_floor _ harg]
    have hSRlen : (SR : ℚ) * ((len : ℚ) / (SR : ℚ)) = (len : ℚ) := by field_simp
    have h1 : (SR : ℚ) * ((len : ℚ) / (SR : ℚ) - b) ≤ (len : ℚ) := by nlinarith
    calc ⌊(SR : ℚ) * ((len : ℚ) / (SR : ℚ) - b)⌋
        ≤ ⌊(len : ℚ)⌋ := Int.floor_le_floor h1
      _ = (len : ℤ) := Int.floor_natCast _

theorem prepCore_trim_bounds (mq : ℚ) (SR : ℕ) (xs : List ℚ) (ts te dur : ℚ)
    (hsr : 1 ≤ SR) (hts : 0 ≤ ts) (hte : 0 ≤ te)
    (hlen : (SR : ℚ) ≤ 2 * (xs.length : ℚ)) :
    0 ≤ (do_predictions_prepCore mq SR xs ts te dur).trimLo ∧
    (do_predictions_prepCore mq SR xs ts te dur).trimLo ≤
      (do_predictions_prepCore mq SR xs ts te dur).trimHi ∧
    (do_predictions_prepCore mq SR xs ts te dur).trimHi ≤ (xs.length : ℤ) := by
  have hsrq : (1 : ℚ) ≤ (SR : ℚ) := by exact_mod_cast hsr
  have hsr0 : (0 : ℚ) < (SR : ℚ) := by linarith
  have hL : (1 : ℚ) / 2 ≤ (xs.length : ℚ) / (SR : ℚ) := by
    rw [div_le_div_iff₀ (by norm_num) hsr0]
    linarith
  simp only [do_predictions_prepCore, normalize_audio_length]
  refine trim_idx_bounds SR xs.length _ _ hsr ?_ ?_ ?_
  · split_ifs <;> linarith
  · split_ifs <;> linarith
  · split_ifs <;> linarith

/-- C4 counterexample: an audio-generator continuation sample of 35
samples at 3 Hz (11.667s) with no trimming is split into a 6-sample
prepend and a 29-sample remainder; the remainder lasts 29/3 ≈ 9.67s,
which *exceeds* the 9.5s maximum context (the slice index
`int(globalSR * cut_size)` rounds down, leaving a sub-sample excess), so
"a remainder no longer than the maximum context" fails as stated. -/
theorem c4_counterexample :
    (do_predictions_prep "audio" 3 (List.replicate 35 1) 0 0 1).sampleM.length = 29 ∧
    (do_predictions_prep "audio" 3 (List.replicate 35 1) 0 0 1).sampleP.map List.length =
      some 6 ∧
    (do_predictions_prep "audio" 3 (List.replicate 35 1) 0 0 1).maximum_size = 9.5 ∧
    ((29 : ℚ) / 3 >
      (do_predictions_prep "audio" 3 (List.replicate 35 1) 0 0 1).maximum_size) ∧
    6 + 29 = 35 := by
  have e : do_predictions_prep "audio" 3 (List.replicate 35 1) 0 0 1 =
      do_predictions_prepCore 9.5 3 (List.replicate 35 1) 0 0 1 := rfl
  rw [e]
  refine ⟨?_, ?_, rfl, ?_, by norm_num⟩
  · norm_num [do_predictions_prepCore, normalize_audio_length,
      List.length_replicate, pyInt, pySlice, pySliceIdx]
    omega
  · norm_num [do_predictions_prepCore, normalize_audio_length,
      List.length_replicate, pyInt, pySlice, pySliceIdx]
    omega
  · rw [show (do_predictions_prepCore (9.5 : ℚ) 3 (List.replicate 35 1) 0 0 1).maximum_size =
      9.5 from rfl]
    norm_num

/-- C4 amended: for a continuation sample whose trimmed length exceeds the
maximum context (29.5s music / 9.5s audio), preprocessing splits the
trimmed sample into a prepend prefix and a remainder with prepend length
plus remainder length exactly the trimmed length (the split is a
`take`/`drop` partition), the prepend is concatenated in front of the
model's continuation output, and the remainder is within *two sample
periods* of the maximum context (`(len : ℚ) < SR·max + 2`) — it can
exceed the maximum context itself by a sub-sample rounding amount. -/
theorem c4_continuation_split_amended (gen_type : String) (SR : ℕ) (xs : List ℚ)
    (ts te dur : ℚ)
    (hgen : gen_type = "music" ∨ gen_type = "audio")
    (hsr : 1 ≤ SR) (hts : 0 ≤ ts) (hte : 0 ≤ te)
    (hbig : (xs.length : ℚ) / (SR : ℚ) - ts - te >
      (do_predictions_prep gen_type SR xs ts te dur).maximum_size) :
    ((gen_type = "music" →
        (do_predictions_prep gen_type SR xs ts te dur).maximum_size = 29.5) ∧
      (gen_type = "audio" →
        (do_predictions_prep gen_type SR xs ts te dur).maximum_size = 9.5)) ∧
    ∃ p,
      (do_predictions_prep gen_type SR xs ts te dur).sampleP = some p ∧
      p ++ (do_predictions_prep gen_type SR xs ts te dur).sampleM =
        pySlice (normalize_audio xs)
          (do_predictions_prep gen_type SR xs ts te dur).trimLo
          (do_predictions_prep gen_type SR xs ts te dur).trimHi ∧
      p.length + (do_predictions_prep gen_type SR xs ts te dur).sampleM.length =
        (pySlice (normalize_audio xs)
          (do_predictions_prep gen_type SR xs ts te dur).trimLo
          (do_predictions_prep gen_type SR xs ts te dur).trimHi).length ∧
      ((do_predictions_prep gen_type SR xs ts te dur).sampleM.length : ℚ) <
        (SR : ℚ) * (do_predictions_prep gen_type SR xs ts te dur).maximum_size + 2 ∧
      (∀ (convert generate : List ℚ → List ℚ),
        continuation_outputs (do_predictions_prep gen_type SR xs ts te dur)
          convert generate =
          convert p ++ generate (do_predictions_prep gen_type SR xs ts te dur).sampleM) := by
  rcases hgen with rfl | rfl
  · have e : do_predictions_prep "music" SR xs ts te dur =
        do_predictions_prepCore 29.5 SR xs ts te dur := rfl
    rw [e] at hbig ⊢
    have hms : (do_predictions_prepCore (29.5 : ℚ) SR xs ts te dur).maximum_size =
        29.5 := rfl
    rw [hms] at hbig ⊢
    refine ⟨⟨fun _ => rfl, fun hcontra => absurd hcontra (by decide)⟩, ?_⟩
    have := prepCore_split_spec 29.5 SR xs ts te dur (by norm_num) hsr hts hte hbig
    obtain ⟨p, h1, h2, h3, h4, _, h6⟩ := this
    exact ⟨p, h1, h2, h3, h4, h6⟩
  · have e : do_predictions_prep "audio" SR xs ts te dur =
        do_predictions_prepCore 9.5 SR xs ts te dur := rfl
    rw [e] at hbig ⊢
    have hms : (do_predictions_prepCore (9.5 : ℚ) SR xs ts te dur).maximum_size =
        9.5 := rfl
    rw [hms] at hbig ⊢
    refine ⟨⟨fun hcontra => absurd hcontra (by decide), fun _ => rfl⟩, ?_⟩
    have := prepCore_split_spec 9.5 SR xs ts te dur (by norm_num) hsr hts hte hbig
    obtain ⟨p, h1, h2, h3, h4, _, h6⟩ := this
    exact ⟨p, h1, h2, h3, h4, h6⟩

/-- Witness for C4 (amended) on a 31-sample, 1 Hz music-generator sample
(31s > 29.5s) with no trimming. -/
theorem c4_witness :
    ((1 : ℕ) ≤ 1 ∧ (0 : ℚ) ≤ 0 ∧
      (((List.replicate 31 (1 : ℚ)).length : ℚ) / ((1 : ℕ) : ℚ) - 0 - 0 >
        (do_predictions_prep "music" 1 (List.replicate 31 1) 0 0 1).maximum_size)) ∧
    (((("music" : String) = "music" →
        (do_predictions_prep "music" 1 (List.replicate 31 1) 0 0 1).maximum_size = 29.5) ∧
      (("music" : String) = "audio" →
        (do_predictions_prep "music" 1 (List.replicate 31 1) 0 0 1).maximum_size = 9.5)) ∧
    ∃ p,
      (do_predictions_prep "music" 1 (List.replicate 31 1) 0 0 1).sampleP = some p ∧
      p ++ (do_predictions_prep "music" 1 (List.replicate 31 1) 0 0 1).sampleM =
        pySlice (normalize_audio (List.replicate 31 1))
          (do_predictions_prep "music" 1 (List.replicate 31 1) 0 0 1).trimLo
          (do_predictions_prep "music" 1 (List.replicate 31 1) 0 0 1).trimHi ∧
      p.length + (do_predictions_prep "music" 1 (List.replicate 31 1) 0 0 1).sampleM.length =
        (pySlice (normalize_audio (List.replicate 31 1))
          (do_predictions_prep "music" 1 (List.replicate 31 1) 0 0 1).trimLo
          (do_predictions_prep "music" 1 (List.replicate 31 1) 0 0 1).trimHi).length ∧
      ((do_predictions_prep "music" 1 (List.replicate 31 1) 0 0 1).sampleM.length : ℚ) <
        ((1 : ℕ) : ℚ) *
          (do_predictions_prep "music" 1 (List.replicate 31 1) 0 0 1).maximum_size + 2 ∧
      (∀ (convert generate : List ℚ → List ℚ),
        continuation_outputs (do_predictions_prep "music" 1 (List.replicate 31 1) 0 0 1)
          convert generate =
          convert p ++
            generate (do_predictions_prep "music" 1 (List.replicate 31 1) 0 0 1).sampleM)) :=
  ⟨⟨le_refl 1, le_refl 0, by
      norm_num [List.length_replicate,
        show (do_predictions_prep "music" 1 (List.replicate 31 (1 : ℚ)) 0 0 1).maximum_size =
          29.5 from rfl]⟩,
    c4_continuation_split_amended "music" 1 (List.replicate 31 1) 0 0 1
      (Or.inl rfl) (le_refl 1) (le_refl 0) (le_refl 0)
      (by
        norm_num [List.length_replicate,
          show (do_predictions_prep "music" 1 (List.replicate 31 (1 : ℚ)) 0 0 1).maximum_size =
            29.5 from rfl])⟩

/-- C9 counterexample: the call `predict_full(trim_start = 5,
trim_end = -1)` on a 0.3s audio sample (3 samples at 10 Hz) has a negative
trim bound, yet after the clamp the preprocessing computes the slice start
index `int(10 * (0.3 - 0.5)) = -2 < 0`: a negative slice of the
conditioning sample arises (from the tiny-sample fallback), so "never
produces a negative slice" fails as stated. -/
theorem c9_counterexample :
    predict_full_trims 5 (-1) = (5, 0) ∧
    (-1 : ℚ) < 0 ∧
    (do_predictions_prep "audio" 10 (List.replicate 3 1)
      (predict_full_trims 5 (-1)).1 (predict_full_trims 5 (-1)).2 30).trimLo = -2 ∧
    (do_predictions_prep "audio" 10 (List.replicate 3 1)
      (predict_full_trims 5 (-1)).1 (predict_full_trims 5 (-1)).2 30).trimLo < 0 := by
  have ht : predict_full_trims 5 (-1) = ((5 : ℚ), (0 : ℚ)) := by
    norm_num [predict_full_trims]
  refine ⟨ht, by norm_num, ?_, ?_⟩ <;>
    rw [ht] <;>
    norm_num [do_predictions_prep, do_predictions_prepCore, normalize_audio_length,
      List.length_replicate, pyInt]

/-- C9 amended: negative trim bounds are silently clamped to 0 before any
use (the call behaves exactly like the same call with the offending bound
at 0), and — provided the conditioning sample is at least half a second
long (`SR ≤ 2·len`), which rules out the tiny-sample fallback corner —
the computed slice bounds satisfy `0 ≤ lo ≤ hi ≤ len`, so no negative
slice of the conditioning sample arises. -/
theorem c9_negative_trim_amended :
    (∀ ts te : ℚ,
      0 ≤ (predict_full_trims ts te).1 ∧ 0 ≤ (predict_full_trims ts te).2 ∧
      (ts < 0 → (predict_full_trims ts te).1 = 0) ∧
      (te < 0 → (predict_full_trims ts te).2 = 0) ∧
      predict_full_trims ts te = predict_full_trims (max ts 0) (max te 0)) ∧
    (∀ (gen_type : String) (SR : ℕ) (xs : List ℚ) (ts te dur : ℚ),
      1 ≤ SR → 0 ≤ ts → 0 ≤ te → (SR : ℚ) ≤ 2 * (xs.length : ℚ) →
      0 ≤ (do_predictions_prep gen_type SR xs ts te dur).trimLo ∧
      (do_predictions_prep gen_type SR xs ts te dur).trimLo ≤
        (do_predictions_prep gen_type SR xs ts te dur).trimHi ∧
      (do_predictions_prep gen_type SR xs ts te dur).trimHi ≤ (xs.length : ℤ)) := by
  constructor
  · intro ts te
    have hm1 : ¬ (max ts 0 < 0) := not_lt.2 (le_max_right ts 0)
    have hm2 : ¬ (max te 0 < 0) := not_lt.2 (le_max_right te 0)
    have hfst : (if ts < 0 then (0 : ℚ) else ts) = max ts 0 := by
      by_cases h : ts < 0
      · rw [if_pos h, max_eq_right (le_of_lt h)]
      · rw [if_neg h, max_eq_left (le_of_not_lt h)]
    have hsnd : (if te < 0 then (0 : ℚ) else te) = max te 0 := by
      by_cases h : te < 0
      · rw [if_pos h, max_eq_right (le_of_lt h)]
      · rw [if_neg h, max_eq_left (le_of_not_lt h)]
    refine ⟨?_, ?_, ?_, ?_, ?_⟩
    · show 0 ≤ (if ts < 0 then (0 : ℚ) else ts)
      rw [hfst]
      exact le_max_right ts 0
    · show 0 ≤ (if te < 0 then (0 : ℚ) else te)
      rw [hsnd]
      exact le_max_right te 0
    · intro h
      show (if ts < 0 then (0 : ℚ) else ts) = 0
      rw [if_pos h]
    · intro h
      show (if te < 0 then (0 : ℚ) else te) = 0
      rw [if_pos h]
    · show ((if ts < 0 then (0 : ℚ) else ts), (if te < 0 then (0 : ℚ) else te)) =
        ((if max ts 0 < 0 then (0 : ℚ) else max ts 0),
          (if max te 0 < 0 then (0 : ℚ) else max te 0))
      rw [if_neg hm1, if_neg hm2, hfst, hsnd]
  · intro gen_type SR xs ts te dur hsr hts hte hlen
    exact prepCore_trim_bounds
      (if gen_type = "music" then 29.5 else if gen_type = "audio" then 9.5 else 0)
      SR xs ts te dur hsr hts hte hlen

/-- Witness for C9 (amended) at `trim_start = -3, trim_end = 2` and a
1-second 4 Hz audio sample. -/
theorem c9_witness :
    ((0 : ℚ) ≤ (predict_full_trims (-3) 2).1 ∧ 0 ≤ (predict_full_trims (-3) 2).2 ∧
      ((-3 : ℚ) < 0 → (predict_full_trims (-3) 2).1 = 0) ∧
      ((2 : ℚ) < 0 → (predict_full_trims (-3) 2).2 = 0) ∧
      predict_full_trims (-3) 2 = predict_full_trims (max (-3) 0) (max 2 0)) ∧
    ((1 : ℕ) ≤ 4 ∧ ((4 : ℕ) : ℚ) ≤ 2 * ((List.replicate 4 (1 : ℚ)).length : ℚ)) ∧
    (0 ≤ (do_predictions_prep "audio" 4 (List.replicate 4 1) 0 0 10).trimLo ∧
      (do_predictions_prep "audio" 4 (List.replicate 4 1) 0 0 10).trimLo ≤
        (do_predictions_prep "audio" 4 (List.replicate 4 1) 0 0 10).trimHi ∧
      (do_predictions_prep "audio" 4 (List.replicate 4 1) 0 0 10).trimHi ≤
        ((List.replicate 4 (1 : ℚ)).length : ℤ)) :=
  ⟨c9_negative_trim_amended.1 (-3) 2,
    ⟨by norm_num, by norm_num⟩,
    c9_negative_trim_amended.2 "audio" 4 (List.replicate 4 1) 0 0 10
      (by norm_num) (le_refl 0) (le_refl 0) (by norm_num)⟩

/-! ## Theorems: metadata encode/decode (claims C5, C6) -/

theorem findQuotedGo_skip (ds : List Char) :
    ∀ (cs : List Char), (∀ c ∈ cs, c ≠ '\'') →
      findQuotedGo (cs ++ ds) none = findQuotedGo ds none := by
  intro cs
  induction cs with
  | nil => intro _; rfl
  | cons c cs ih =>
    intro h
    have hc : c ≠ '\'' := h c (List.mem_cons_self _ _)
    calc findQuotedGo ((c :: cs) ++ ds) none
        = findQuotedGo (cs ++ ds) none := by
          show findQuotedGo (c :: (cs ++ ds)) none = _
          simp only [findQuotedGo]
          rw [if_neg hc]
      _ = findQuotedGo ds none := ih (fun c' hc' => h c' (List.mem_cons_of_mem _ hc'))

theorem findQuotedGo_inside (ds : List Char) :
    ∀ (cs : List Char) (acc : List Char), (∀ c ∈ cs, c ≠ '\'') →
      findQuotedGo (cs ++ '\'' :: ds) (some acc) =
        String.mk (acc.reverse ++ cs) :: findQuotedGo ds none := by
  intro cs
  induction cs with
  | nil =>
    intro acc _
    simp [findQuotedGo]
  | cons c cs ih =>
    intro acc h
    have hc : c ≠ '\'' := h c (List.mem_cons_self _ _)
    calc findQuotedGo ((c :: cs) ++ '\'' :: ds) (some acc)
        = findQuotedGo (cs ++ '\'' :: ds) (some (c :: acc)) := by
          show findQuotedGo (c :: (cs ++ '\'' :: ds)) (some acc) = _
          simp only [findQuotedGo]
          rw [if_neg hc]
      _ = String.mk ((c :: acc).reverse ++ cs) :: findQuotedGo ds none :=
          ih (c :: acc) (fun c' hc' => h c' (List.mem_cons_of_mem _ hc'))
      _ = String.mk (acc.reverse ++ c :: cs) :: findQuotedGo ds none := by simp

theorem findQuotedGo_entry (x : String) (ds : List Char)
    (h : ∀ c ∈ x.data, c ≠ '\'') :
    findQuotedGo ('\'' :: (x.data ++ '\'' :: ds)) none = x :: findQuotedGo ds none := by
  have e1 : findQuotedGo ('\'' :: (x.data ++ '\'' :: ds)) none =
      findQuotedGo (x.data ++ '\'' :: ds) (some []) := by
    simp [findQuotedGo]
  rw [e1, findQuotedGo_inside ds x.data [] h]
  rfl

theorem pyReprPlain_ne_quote (c : Char) (h : pyReprPlain c = true) : c ≠ '\'' := by
  simp only [pyReprPlain, Bool.and_eq_true, bne_iff_ne, ne_eq, decide_eq_true_eq] at h
  exact h.1.1.2

theorem pyReprEsc_plain (c : Char) (h : pyReprPlain c = true) :
    pyReprEsc '\'' c = [c] := by
  simp only [pyReprPlain, Bool.and_eq_true, bne_iff_ne, ne_eq, decide_eq_true_eq] at h
  obtain ⟨⟨⟨hbs, hq⟩, h32⟩, h127⟩ := h
  have ht : ¬ c = '\t' := by rintro rfl; exact absurd h32 (by decide)
  have hn : ¬ c = '\n' := by rintro rfl; exact absurd h32 (by decide)
  have hr : ¬ c = '\r' := by rintro rfl; exact absurd h32 (by decide)
  have hc : ¬ (c.toNat < 32 ∨ c.toNat = 127) := by omega
  simp only [pyReprEsc, if_neg hbs, if_neg hq, if_neg ht, if_neg hn, if_neg hr,
    if_neg hc]

theorem pyReprStr_plain (s : String) (h : ∀ c ∈ s.data, pyReprPlain c = true) :
    (pyReprStr s).data = '\'' :: (s.data ++ ['\'']) := by
  have hcond : ¬ ('\'' ∈ s.data ∧ '"' ∉ s.data) := by
    rintro ⟨hc, _⟩
    exact pyReprPlain_ne_quote '\'' (h _ hc) rfl
  have hmap : ∀ (l : List Char), (∀ c ∈ l, pyReprPlain c = true) →
      (l.map (pyReprEsc '\'')).flatten = l := by
    intro l hl
    induction l with
    | nil => rfl
    | cons c cs ih =>
      rw [List.map_cons, List.flatten_cons, pyReprEsc_plain c (hl c (List.mem_cons_self _ _)),
        ih (fun c' hc' => hl c' (List.mem_cons_of_mem _ hc'))]
      rfl
  rw [pyReprStr, if_neg hcond, hmap s.data h]

theorem findQuotedStr_pyStrList (xs : List String)
    (h : ∀ x ∈ xs, ∀ c ∈ x.data, pyReprPlain c = true) :
    findQuotedStr (pyStrList xs) = xs := by
  have key : ∀ (ys : List String), (∀ x ∈ ys, ∀ c ∈ x.data, pyReprPlain c = true) →
      findQuotedGo ((pyStrListGo ys).data ++ [']']) none = ys := by
    intro ys
    induction ys with
    | nil => intro _; rfl
    | cons x rest ih =>
      intro hy
      have hxp : ∀ c ∈ x.data, pyReprPlain c = true := hy x (List.mem_cons_self _ _)
      have hx : ∀ c ∈ x.data, c ≠ '\'' := fun c hc => pyReprPlain_ne_quote c (hxp c hc)
      cases rest with
      | nil =>
        show findQuotedGo ((pyReprStr x).data ++ [']']) none = [x]
        rw [pyReprStr_plain x hxp]
        have e : ('\'' :: (x.data ++ ['\''])) ++ [']'] =
            '\'' :: (x.data ++ '\'' :: [']']) := by simp
        rw [e, findQuotedGo_entry x [']'] hx]
        rfl
      | cons y rest' =>
        have e : (pyStrListGo (x :: y :: rest')).data ++ [']'] =
            '\'' :: (x.data ++ '\'' ::
              ((',' :: ' ' :: []) ++ ((pyStrListGo (y :: rest')).data ++ [']']))) := by
          have e0 : (pyStrListGo (x :: y :: rest')).data =
              ((pyReprStr x).data ++ (',' :: ' ' :: [])) ++
                (pyStrListGo (y :: rest')).data := rfl
          rw [e0, pyReprStr_plain x hxp]
          simp
        rw [e, findQuotedGo_entry x _ hx,
          findQuotedGo_skip _ (',' :: ' ' :: []) ?hcomma,
          ih (fun x' hx' => hy x' (List.mem_cons_of_mem _ hx'))]
        case hcomma =>
          intro c hc
          rcases List.mem_cons.1 hc with rfl | hc
          · decide
          · rcases List.mem_cons.1 hc with rfl | hc
            · decide
            · exact absurd hc (List.not_mem_nil c)
  show findQuotedGo (pyStrList xs).data none = xs
  have e : (pyStrList xs).data = ('[' :: []) ++ ((pyStrListGo xs).data ++ [']']) := by
    show ("[" ++ pyStrListGo xs ++ "]").data = _
    show ("[".data ++ (pyStrListGo xs).data) ++ "]".data = _
    simp
  rw [e, findQuotedGo_skip _ ('[' :: []) ?hbr, key xs h]
  case hbr =>
    intro c hc
    rcases List.mem_cons.1 hc with rfl | hc
    · decide
    · exact absurd hc (List.not_mem_nil c)

theorem incrementLast_append : ∀ (R : List ℕ) (m : ℕ),
    incrementLast (R ++ [m]) = R ++ [m + 1]
  | [], _ => rfl
  | [_], _ => rfl
  | r :: r' :: R, m => by
    show r :: incrementLast (r' :: (R ++ [m])) = r :: (r' :: R ++ [m + 1])
    rw [show r' :: (R ++ [m]) = (r' :: R) ++ [m] from rfl,
      incrementLast_append (r' :: R) m]

theorem collapseGo_replicate (t : String) (ht : pyStripTruthy t = true) :
    ∀ (k : ℕ) (rest : List String) (T : List String) (R : List ℕ) (m : ℕ),
      collapseGo (List.replicate k t ++ rest) (some t) (T, R ++ [m]) =
      collapseGo rest (some t) (T, R ++ [m + k]) := by
  intro k
  induction k with
  | zero => intro rest T R m; rfl
  | succ k ih =>
    intro rest T R m
    rw [List.replicate_succ]
    show collapseGo (t :: (List.replicate k t ++ rest)) (some t) (T, R ++ [m]) = _
    rw [show collapseGo (t :: (List.replicate k t ++ rest)) (some t) (T, R ++ [m]) =
        collapseGo (List.replicate k t ++ rest) (some t)
          (T, incrementLast (R ++ [m])) from by
      simp only [collapseGo]
      rw [if_pos ht]
      simp]
    rw [incrementLast_append, ih]
    have : m + 1 + k = m + (k + 1) := by omega
    rw [this]

theorem collapseGo_segments :
    ∀ (segs : List (String × ℕ)),
      (∀ sg ∈ segs, pyStripTruthy sg.1 = true ∧ 1 ≤ sg.2) →
      segs.Chain' (fun a b => a.1 ≠ b.1) →
      ∀ (prev : Option String),
        (∀ sg, segs.head? = some sg → prev ≠ some sg.1) →
        ∀ (T : List String) (R : List ℕ),
          collapseGo ((segs.map (fun sg => List.replicate sg.2 sg.1)).flatten) prev (T, R) =
            (T ++ segs.map Prod.fst, R ++ segs.map Prod.snd) := by
  intro segs
  induction segs with
  | nil => intro _ _ prev _ T R; simp [collapseGo]
  | cons sg rest ih =>
    intro hall hch prev hprev T R
    obtain ⟨t, d⟩ := sg
    obtain ⟨htt0, htd⟩ := hall (t, d) (List.mem_cons_self _ _)
    have htt : pyStripTruthy t = true := htt0
    obtain ⟨d', rfl⟩ : ∃ d', d = d' + 1 := ⟨d - 1, by omega⟩
    have hflat : (((t, d' + 1) :: rest).map (fun sg => List.replicate sg.2 sg.1)).flatten =
        t :: (List.replicate d' t ++ (rest.map (fun sg => List.replicate sg.2 sg.1)).flatten) := by
      simp [List.replicate_succ]
    rw [hflat]
    have hne : prev ≠ some t := hprev (t, d' + 1) rfl
    have hstep : collapseGo
        (t :: (List.replicate d' t ++ (rest.map (fun sg => List.replicate sg.2 sg.1)).flatten))
        prev (T, R) =
        collapseGo (List.replicate d' t ++ (rest.map (fun sg => List.replicate sg.2 sg.1)).flatten)
          (some t) (T ++ [t], R ++ [1]) := by
      simp only [collapseGo]
      rw [if_pos htt, if_neg hne]
    rw [hstep, collapseGo_replicate t htt d' _ (T ++ [t]) R 1]
    have hrest : collapseGo ((rest.map (fun sg => List.replicate sg.2 sg.1)).flatten)
        (some t) (T ++ [t], R ++ [1 + d']) =
        ((T ++ [t]) ++ rest.map Prod.fst, (R ++ [1 + d']) ++ rest.map Prod.snd) := by
      apply ih (fun sg' hsg' => hall sg' (List.mem_cons_of_mem _ hsg')) hch.tail
      intro sg' hsg'
      cases rest with
      | nil => simp at hsg'
      | cons sg2 rest2 =>
        have h2 : sg' = sg2 := by simpa using hsg'.symm
        subst h2
        have := List.chain'_cons.1 hch
        intro hcontra
        exact this.1 (Option.some.inj hcontra)
    rw [hrest]
    have h1d : 1 + d' = d' + 1 := by omega
    simp [h1d]

theorem parse_texts_roundtrip (r : Request)
    (hn1 : 1 ≤ r.prompt_amount) (hn10 : r.prompt_amount ≤ 10)
    (htext : ∀ i < r.prompt_amount,
      pyStripTruthy (r.texts.getD i "") = true ∧
        ∀ c ∈ (r.texts.getD i "").data, pyReprPlain c = true)
    (hadj : ∀ i, i + 1 < r.prompt_amount → r.texts.getD i "" ≠ r.texts.getD (i + 1) "")
    (hrep : ∀ i < r.prompt_amount, 1 ≤ r.repeats.getD i 0) :
    parse_texts (pyStrList (raw_texts r)) =
      ((List.range r.prompt_amount).map (fun i => r.texts.getD i "") ++
        List.replicate (10 - r.prompt_amount) "",
       (List.range r.prompt_amount).map (fun i => r.repeats.getD i 0) ++
        List.replicate (10 - r.prompt_amount) 1) := by
  set segs := (List.range r.prompt_amount).map
    (fun i => (r.texts.getD i "", r.repeats.getD i 0)) with hsegs
  have hflat : raw_texts r = (segs.map (fun sg => List.replicate sg.2 sg.1)).flatten := by
    rw [raw_texts, hsegs, List.map_map]
    rfl
  have hquote : ∀ x ∈ raw_texts r, ∀ c ∈ x.data, pyReprPlain c = true := by
    intro x hx
    rw [raw_texts] at hx
    rw [List.mem_flatten] at hx
    obtain ⟨l, hl, hxl⟩ := hx
    simp only [List.mem_map, List.mem_range] at hl
    obtain ⟨i, hi, rfl⟩ := hl
    rw [List.eq_of_mem_replicate hxl]
    exact (htext i hi).2
  have hall : ∀ sg ∈ segs, pyStripTruthy sg.1 = true ∧ 1 ≤ sg.2 := by
    intro sg hsg
    rw [hsegs] at hsg
    simp only [List.mem_map, List.mem_range] at hsg
    obtain ⟨i, hi, rfl⟩ := hsg
    exact ⟨(htext i hi).1, hrep i hi⟩
  have hch : segs.Chain' (fun a b => a.1 ≠ b.1) := by
    rw [hsegs, List.chain'_map]
    obtain ⟨n', hn'⟩ : ∃ n', r.prompt_amount = n' + 1 := ⟨r.prompt_amount - 1, by omega⟩
    rw [hn']
    rw [List.chain'_range_succ]
    intro m hm
    exact hadj m (by omega)
  have hprev : ∀ sg, segs.head? = some sg → (none : Option String) ≠ some sg.1 := by
    intro sg _
    simp
  have hc : collapseGo (findQuotedStr (pyStrList (raw_texts r))) none ([], []) =
      (segs.map Prod.fst, segs.map Prod.snd) := by
    rw [findQuotedStr_pyStrList (raw_texts r) hquote, hflat,
      collapseGo_segments segs hall hch none hprev [] []]
    simp
  show (let c := collapseGo (findQuotedStr (pyStrList (raw_texts r))) none ([], [])
    (c.1 ++ List.replicate (10 - c.1.length) "", c.2 ++ List.replicate (10 - c.2.length) 1)) = _
  rw [hc]
  have hlen1 : (segs.map Prod.fst).length = r.prompt_amount := by
    rw [List.length_map, hsegs, List.length_map, List.length_range]
  have hlen2 : (segs.map Prod.snd).length = r.prompt_amount := by
    rw [List.length_map, hsegs, List.length_map, List.length_range]
  have hfst : segs.map Prod.fst = (List.range r.prompt_amount).map (fun i => r.texts.getD i "") := by
    rw [hsegs, List.map_map]
    rfl
  have hsnd : segs.map Prod.snd = (List.range r.prompt_amount).map (fun i => r.repeats.getD i 0) := by
    rw [hsegs, List.map_map]
    rfl
  simp only [hlen1, hlen2, hfst, hsnd, List.length_map, List.length_range]

/-- C5 amended: the metadata round-trip recovers the prompt segments and
the scalar fields for requests where it can: adjacent segments have
distinct texts, every active text contains a non-whitespace character and
only characters Python `repr` emits unescaped (printable ASCII other than
backslash and single quote), repeats are at least 1, the prompt is
structured with `key`/`scale` not the `"none"` sentinel, conditioning
audio is present with a non-`"none"` mode, the seed is non-negative, and
`topk` is integral (the encoder stores `int(topk)`).  Under those
provisos decoding the encoded record recovers texts and repeats (padded
to ten slots) and every listed scalar field; for adjacent equal texts the
round-trip fails (see the counterexample), texts needing `repr` escapes
come back in escaped form, and unstructured requests overwrite
`global_prompt`/`bpm`/`key`/`scale` with `"none"` before encoding. -/
theorem c5_metadata_roundtrip_amended (folders : List String) (rand_seed : ℤ)
    (input_length : String) (r : Request)
    (hn1 : 1 ≤ r.prompt_amount) (hn10 : r.prompt_amount ≤ 10)
    (htext : ∀ i < r.prompt_amount,
      pyStripTruthy (r.texts.getD i "") = true ∧
        ∀ c ∈ (r.texts.getD i "").data, pyReprPlain c = true)
    (hadj : ∀ i, i + 1 < r.prompt_amount → r.texts.getD i "" ≠ r.texts.getD (i + 1) "")
    (hrep : ∀ i < r.prompt_amount, 1 ≤ r.repeats.getD i 0)
    (hstruc : r.struc_prompt = true) (hseed : 0 ≤ r.seed)
    (hkey : r.key ≠ "none") (hscale : r.scale ≠ "none")
    (haudio : r.audio = true) (hmode : r.mode ≠ "none")
    (htopk : ((pyInt r.topk : ℤ) : ℚ) = r.topk) :
    (info_to_params folders (encodeTags rand_seed input_length r)).text =
      (List.range r.prompt_amount).map (fun i => r.texts.getD i "") ++
        List.replicate (10 - r.prompt_amount) "" ∧
    (info_to_params folders (encodeTags rand_seed input_length r)).repeats =
      (List.range r.prompt_amount).map (fun i => r.repeats.getD i 0) ++
        List.replicate (10 - r.prompt_amount) 1 ∧
    (info_to_params folders (encodeTags rand_seed input_length r)).unique_prompts =
      r.prompt_amount ∧
    (info_to_params folders (encodeTags rand_seed input_length r)).struc_prompt =
      r.struc_prompt ∧
    (info_to_params folders (encodeTags rand_seed input_length r)).global_prompt =
      r.global_prompt ∧
    (info_to_params folders (encodeTags rand_seed input_length r)).bpm = r.bpm ∧
    (info_to_params folders (encodeTags rand_seed input_length r)).key = r.key ∧
    (info_to_params folders (encodeTags rand_seed input_length r)).scale = r.scale ∧
    (info_to_params folders (encodeTags rand_seed input_length r)).decoder = r.decoder ∧
    (info_to_params folders (encodeTags rand_seed input_length r)).model = r.model ∧
    (info_to_params folders (encodeTags rand_seed input_length r)).audio_mode = r.mode ∧
    (info_to_params folders (encodeTags rand_seed input_length r)).duration = r.duration ∧
    (info_to_params folders (encodeTags rand_seed input_length r)).overlap = r.overlap ∧
    (info_to_params folders (encodeTags rand_seed input_length r)).seed = r.seed ∧
    (info_to_params folders (encodeTags rand_seed input_length r)).topk = r.topk ∧
    (info_to_params folders (encodeTags rand_seed input_length r)).topp = r.topp ∧
    (info_to_params folders (encodeTags rand_seed input_length r)).temperature =
      r.temperature ∧
    (info_to_params folders (encodeTags rand_seed input_length r)).cfg_coef = r.cfg_coef ∧
    (info_to_params folders (encodeTags rand_seed input_length r)).channel = r.channel ∧
    (info_to_params folders (encodeTags rand_seed input_length r)).sr_select =
      r.sr_select := by
  have hmut : ¬ (r.struc_prompt = false ∧ raw_texts r ≠ []) := by
    rw [hstruc]
    rintro ⟨hcontra, _⟩
    exact absurd hcontra (by decide)
  have hpt := parse_texts_roundtrip r hn1 hn10 htext hadj hrep
  have huniq : (((List.range r.prompt_amount).map (fun i => r.texts.getD i "") ++
      List.replicate (10 - r.prompt_amount) "").filter (fun x => x ≠ "")).length =
      r.prompt_amount := by
    rw [List.filter_append]
    have h1 : ((List.range r.prompt_amount).map (fun i => r.texts.getD i "")).filter
        (fun x => x ≠ "") = (List.range r.prompt_amount).map (fun i => r.texts.getD i "") := by
      rw [List.filter_eq_self]
      intro a ha
      simp only [List.mem_map, List.mem_range] at ha
      obtain ⟨i, hi, rfl⟩ := ha
      have hne : r.texts.getD i "" ≠ "" := by
        intro hcontra
        have h' := (htext i hi).1
        rw [hcontra] at h'
        exact absurd h' (by decide)
      simpa using hne
    have h2 : (List.replicate (10 - r.prompt_amount) "").filter (fun x => x ≠ "") = [] := by
      simp
    rw [h1, h2, List.append_nil, List.length_map, List.length_range]
  have hseed' : ¬ r.seed < 0 := not_lt.2 hseed
  simp only [encodeTags, if_neg hmut, if_neg hseed', haudio, if_true, info_to_params,
    Option.getD_some, hpt, if_neg hkey, if_neg hscale, if_neg hmode]
  refine ⟨?_, ?_, ?_, ?_, ?_, ?_, ?_, ?_, ?_, ?_, ?_, ?_, ?_, ?_, ?_, ?_, ?_, ?_, ?_, ?_⟩
    <;> first
      | rfl
      | trivial
      | exact huniq
      | exact hstruc.symm

/-- C5 counterexample: the request with two adjacent segments both
carrying text `"a"` (repeat 1 each) does not round-trip: decoding the
encoded record collapses the two segments into one `("a", 2)` group, so
the decoded slot 1 text is `""` (not `"a"`) and the decoded slot 0 repeat
is 2 (not 1). -/
theorem c5_counterexample :
    (info_to_params [] (encodeTags 0 "0" c5_request_dup)).text.getD 1 "" = "" ∧
    (info_to_params [] (encodeTags 0 "0" c5_request_dup)).repeats.getD 0 0 = 2 ∧
    c5_request_dup.texts.getD 1 "" = "a" ∧
    c5_request_dup.repeats.getD 0 0 = 1 ∧
    (info_to_params [] (encodeTags 0 "0" c5_request_dup)).text.getD 1 "" ≠
      c5_request_dup.texts.getD 1 "" ∧
    (info_to_params [] (encodeTags 0 "0" c5_request_dup)).repeats.getD 0 0 ≠
      c5_request_dup.repeats.getD 0 0 := by
  refine ⟨by decide, by decide, by decide, by decide, by decide, by decide⟩

/-- C6: for every metadata record, each missing optional key decodes to
its documented default: `bpm` 120, `decoder` `"Default"`, `duration` 10,
`topk` 250, `topp` 0, `temperature` 1.0, `cfg_coef` 5.0, `seed` -1,
`overlap` 12, `channel` `"stereo"`, `sr_select` `"48000"`, and a missing
`texts` yields ten empty prompts with repeat 1; `info_to_params` is total,
so decoding never fails on a missing key. -/
theorem c6_missing_key_defaults (folders : List String) (t : Tags) :
    (t.bpm = none → (info_to_params folders t).bpm = 120) ∧
    (t.decoder = none → (info_to_params folders t).decoder = "Default") ∧
    (t.duration = none → (info_to_params folders t).duration = 10) ∧
    (t.topk = none → (info_to_params folders t).topk = 250) ∧
    (t.topp = none → (info_to_params folders t).topp = 0) ∧
    (t.temperature = none → (info_to_params folders t).temperature = 1) ∧
    (t.cfg_coef = none → (info_to_params folders t).cfg_coef = 5) ∧
    (t.seed = none → (info_to_params folders t).seed = -1) ∧
    (t.overlap = none → (info_to_params folders t).overlap = 12) ∧
    (t.channel = none → (info_to_params folders t).channel = "stereo") ∧
    (t.sr_select = none → (info_to_params folders t).sr_select = "48000") ∧
    (t.texts = none → (info_to_params folders t).text = List.replicate 10 "" ∧
      (info_to_params folders t).repeats = List.replicate 10 1 ∧
      (info_to_params folders t).unique_prompts = 1) := by
  refine ⟨?_, ?_, ?_, ?_, ?_, ?_, ?_, ?_, ?_, ?_, ?_, ?_⟩ <;>
    (intro h; simp [info_to_params, h])

/-- Witness for C6 on the fully-empty record. -/
theorem c6_witness :
    (({} : Tags).bpm = none ∧ ({} : Tags).texts = none) ∧
    ((info_to_params [] {}).bpm = 120 ∧
      (info_to_params [] {}).decoder = "Default" ∧
      (info_to_params [] {}).duration = 10 ∧
      (info_to_params [] {}).topk = 250 ∧
      (info_to_params [] {}).topp = 0 ∧
      (info_to_params [] {}).temperature = 1 ∧
      (info_to_params [] {}).cfg_coef = 5 ∧
      (info_to_params [] {}).seed = -1 ∧
      (info_to_params [] {}).overlap = 12 ∧
      (info_to_params [] {}).channel = "stereo" ∧
      (info_to_params [] {}).sr_select = "48000" ∧
      (info_to_params [] {}).text = List.replicate 10 "" ∧
      (info_to_params [] {}).repeats = List.replicate 10 1 ∧
      (info_to_params [] {}).unique_prompts = 1) :=
  ⟨⟨rfl, rfl⟩,
    (c6_missing_key_defaults [] {}).1 rfl,
    (c6_missing_key_defaults [] {}).2.1 rfl,
    (c6_missing_key_defaults [] {}).2.2.1 rfl,
    (c6_missing_key_defaults [] {}).2.2.2.1 rfl,
    (c6_missing_key_defaults [] {}).2.2.2.2.1 rfl,
    (c6_missing_key_defaults [] {}).2.2.2.2.2.1 rfl,
    (c6_missing_key_defaults [] {}).2.2.2.2.2.2.1 rfl,
    (c6_missing_key_defaults [] {}).2.2.2.2.2.2.2.1 rfl,
    (c6_missing_key_defaults [] {}).2.2.2.2.2.2.2.2.1 rfl,
    (c6_missing_key_defaults [] {}).2.2.2.2.2.2.2.2.2.1 rfl,
    (c6_missing_key_defaults [] {}).2.2.2.2.2.2.2.2.2.2.1 rfl,
    ((c6_missing_key_defaults [] {}).2.2.2.2.2.2.2.2.2.2.2 rfl).1,
    ((c6_missing_key_defaults [] {}).2.2.2.2.2.2.2.2.2.2.2 rfl).2.1,
    ((c6_missing_key_defaults [] {}).2.2.2.2.2.2.2.2.2.2.2 rfl).2.2⟩

/-- Witness for C5 (amended) on the concrete two-segment structured
request `c5_request_ok`. -/
theorem c5_witness :
    (1 ≤ c5_request_ok.prompt_amount ∧ c5_request_ok.prompt_amount ≤ 10 ∧
      c5_request_ok.struc_prompt = true ∧ 0 ≤ c5_request_ok.seed) ∧
    ((info_to_params ["m"] (encodeTags 7 "12.5" c5_request_ok)).text =
      (List.range c5_request_ok.prompt_amount).map (fun i => c5_request_ok.texts.getD i "") ++
        List.replicate (10 - c5_request_ok.prompt_amount) "" ∧
    (info_to_params ["m"] (encodeTags 7 "12.5" c5_request_ok)).repeats =
      (List.range c5_request_ok.prompt_amount).map
        (fun i => c5_request_ok.repeats.getD i 0) ++
        List.replicate (10 - c5_request_ok.prompt_amount) 1 ∧
    (info_to_params ["m"] (encodeTags 7 "12.5" c5_request_ok)).unique_prompts =
      c5_request_ok.prompt_amount ∧
    (info_to_params ["m"] (encodeTags 7 "12.5" c5_request_ok)).struc_prompt =
      c5_request_ok.struc_prompt ∧
    (info_to_params ["m"] (encodeTags 7 "12.5" c5_request_ok)).global_prompt =
      c5_request_ok.global_prompt ∧
    (info_to_params ["m"] (encodeTags 7 "12.5" c5_request_ok)).bpm = c5_request_ok.bpm ∧
    (info_to_params ["m"] (encodeTags 7 "12.5" c5_request_ok)).key = c5_request_ok.key ∧
    (info_to_params ["m"] (encodeTags 7 "12.5" c5_request_ok)).scale = c5_request_ok.scale ∧
    (info_to_params ["m"] (encodeTags 7 "12.5" c5_request_ok)).decoder =
      c5_request_ok.decoder ∧
    (info_to_params ["m"] (encodeTags 7 "12.5" c5_request_ok)).model = c5_request_ok.model ∧
    (info_to_params ["m"] (encodeTags 7 "12.5" c5_request_ok)).audio_mode =
      c5_request_ok.mode ∧
    (info_to_params ["m"] (encodeTags 7 "12.5" c5_request_ok)).duration =
      c5_request_ok.duration ∧
    (info_to_params ["m"] (encodeTags 7 "12.5" c5_request_ok)).overlap =
      c5_request_ok.overlap ∧
    (info_to_params ["m"] (encodeTags 7 "12.5" c5_request_ok)).seed = c5_request_ok.seed ∧
    (info_to_params ["m"] (encodeTags 7 "12.5" c5_request_ok)).topk = c5_request_ok.topk ∧
    (info_to_params ["m"] (encodeTags 7 "12.5" c5_request_ok)).topp = c5_request_ok.topp ∧
    (info_to_params ["m"] (encodeTags 7 "12.5" c5_request_ok)).temperature =
      c5_request_ok.temperature ∧
    (info_to_params ["m"] (encodeTags 7 "12.5" c5_request_ok)).cfg_coef =
      c5_request_ok.cfg_coef ∧
    (info_to_params ["m"] (encodeTags 7 "12.5" c5_request_ok)).channel =
      c5_request_ok.channel ∧
    (info_to_params ["m"] (encodeTags 7 "12.5" c5_request_ok)).sr_select =
      c5_request_ok.sr_select) :=
  ⟨⟨by decide, by decide, rfl, by decide⟩,
    c5_metadata_roundtrip_amended ["m"] 7 "12.5" c5_request_ok
      (by decide) (by decide) (by decide)
      (by
        intro i hi
        have h2 : i + 1 < 2 := hi
        have h0 : i = 0 := by omega
        subst h0
        decide)
      (by decide)
      rfl (by decide) (by decide) (by decide) rfl (by decide)
      (by norm_num [pyInt, c5_request_ok])⟩

end AppEnhanced
